import Mathlib

/-!
Verification development for the WinSpread spreadsheet engine.

This file is a shallow embedding of the C sources (`sheet.h`, `main.c`)
into Lean 4. Conventions of the embedding:

* IEEE-754 `double` values are modelled as exact rationals (`ℚ`).  All
  arithmetic performed by the engine on the inputs used in the theorems
  below is exact in `double` as well, so the model and the C code agree
  on every comparison and equality test appearing in the claims.
* C strings are modelled as `List Char` (with `String` wrappers); the
  pointer-advancing parsers become functions from a remaining character
  list to a result together with the rest of the list.
* Heap mutation becomes explicit state passing.  The dense `Cell***`
  grid (null = absent cell) is modelled as an association list from
  `(row, col)` to `Cell`; a missing key is a NULL slot.
* `int` indices and sizes are modelled as `Int`.
* Fallible C routines returning a success flag plus out-parameters are
  modelled with `Option`.
* Recursive-descent parsing in C terminates because every recursion
  level consumes input; the embedding makes this explicit with a fuel
  parameter (theorems quantify over sufficient fuel).
-/

namespace WinSpread

attribute [local semireducible] Rat.add Rat.mul Rat.inv Rat.sub

set_option maxRecDepth 8000

/-- Error kinds, from `ErrorType` in sheet.h. -/
inductive ErrorType where
  | none
  | divZero
  | ref
  | value
  | parse
  | na
  deriving DecidableEq, Repr

/-- Data formats, from `DataFormat` in sheet.h. -/
inductive DataFormat where
  | general
  | number
  | percentage
  | currency
  | date
  | time
  | datetime
  deriving DecidableEq, Repr

/-- Date/time formatting styles, from `FormatStyle` in sheet.h (same order
as the C enum; the numeric value 0 used by `cell_new` is `mmDDyyyy`). -/
inductive FormatStyle where
  | mmDDyyyy
  | ddMMyyyy
  | yyyyMMdd
  | monDDyyyy
  | ddMonYyyy
  | yyyyMonDD
  | shortDate
  | time12hr
  | time24hr
  | timeSeconds
  | time12hrSeconds
  | datetimeShort
  | datetimeLong
  | datetimeIso
  deriving DecidableEq, Repr

/-- The tagged union `CellType` + `data` of a cell.  The formula arm
carries the cached result fields exactly as the C struct does. -/
inductive CellContent where
  | empty
  | number (v : ℚ)
  | str (s : String)
  | formula (expression : String) (cached_value : ℚ) (cached_string : Option String)
      (is_string_result : Bool) (error : ErrorType)
  | err
  deriving DecidableEq, Repr

/-- A cell, from `struct Cell` in sheet.h.  The unused dependency arrays
(`depends_on` / `dependents`, never written by any code path) are
omitted. -/
structure Cell where
  content : CellContent
  width : Int
  precision : Int
  align : Int
  format : DataFormat
  format_style : FormatStyle
  text_color : Int
  background_color : Int
  row_height : Int
  row : Int
  col : Int
  deriving DecidableEq, Repr

/-- `cell_new` from sheet.h: a fresh Empty cell with default display
properties. -/
def cell_new (row col : Int) : Cell :=
  { content := CellContent.empty
    width := 10
    precision := 2
    align := 2
    format := DataFormat.general
    format_style := FormatStyle.mmDDyyyy
    text_color := -1
    background_color := -1
    row_height := -1
    row := row
    col := col }

/-- `RangeSelection` from sheet.h. -/
structure RangeSelection where
  start_row : Int
  start_col : Int
  end_row : Int
  end_col : Int
  is_active : Bool
  deriving DecidableEq, Repr

/-- `RangeClipboard` from sheet.h (a rectangular block of optional
copied cells). -/
structure RangeClipboard where
  cells : List (List (Option Cell))
  rows : Int
  cols : Int
  is_active : Bool
  deriving DecidableEq, Repr

/-- Association-list lookup for the cell grid; a missing key models a
NULL `Cell*` slot. -/
def cellsLookup : List ((Int × Int) × Cell) → Int × Int → Option Cell
  | [], _ => Option.none
  | (k, c) :: t, p => if k = p then some c else cellsLookup t p

/-- Association-list update/insert for the cell grid (in-place pointer
update in C). -/
def cellsInsert : List ((Int × Int) × Cell) → Int × Int → Cell → List ((Int × Int) × Cell)
  | [], p, c => [(p, c)]
  | (k, d) :: t, p, c => if k = p then (k, c) :: t else (k, d) :: cellsInsert t p c

/-- The sheet, from `struct Sheet` in sheet.h.  The unused `calc_order`
/ `calc_count` fields (never populated) are omitted. -/
structure Sheet where
  rows : Int
  cols : Int
  cells : List ((Int × Int) × Cell)
  col_widths : List Int
  row_heights : List Int
  name : String
  needs_recalc : Bool
  selection : RangeSelection
  range_clipboard : RangeClipboard
  deriving DecidableEq, Repr

/-- `sheet_new` from sheet.h: empty grid, widths 10, heights 1,
selection and range clipboard inactive (`calloc` zeroes
`needs_recalc`). -/
def sheet_new (rows cols : Int) : Sheet :=
  { rows := rows
    cols := cols
    cells := []
    col_widths := List.replicate cols.toNat 10
    row_heights := List.replicate rows.toNat 1
    name := "Sheet1"
    needs_recalc := false
    selection := { start_row := 0, start_col := 0, end_row := 0, end_col := 0, is_active := false }
    range_clipboard := { cells := [], rows := 0, cols := 0, is_active := false } }

/-- `sheet_get_cell` from sheet.h: bounds-checked lookup, NULL (`none`)
when out of bounds or the slot was never created. -/
def sheet_get_cell (s : Sheet) (row col : Int) : Option Cell :=
  if row < 0 ∨ row ≥ s.rows ∨ col < 0 ∨ col ≥ s.cols then Option.none
  else cellsLookup s.cells (row, col)

/-- `sheet_get_or_create_cell` from sheet.h: lazily allocates a default
cell on first access.  Returns the updated sheet together with the cell
(the C function returns the pointer; NULL exactly when out of
bounds). -/
def sheet_get_or_create_cell (s : Sheet) (row col : Int) : Sheet × Option Cell :=
  if row < 0 ∨ row ≥ s.rows ∨ col < 0 ∨ col ≥ s.cols then (s, Option.none)
  else
    match cellsLookup s.cells (row, col) with
    | some c => (s, some c)
    | Option.none =>
      let c := cell_new row col
      ({ s with cells := cellsInsert s.cells (row, col) c }, some c)

/-- `cell_clear` from sheet.h: content becomes Empty, formatting kept. -/
def cell_clear (c : Cell) : Cell :=
  { c with content := CellContent.empty }

/-- `cell_set_number` from sheet.h. -/
def cell_set_number (c : Cell) (v : ℚ) : Cell :=
  { cell_clear c with content := CellContent.number v }

/-- `cell_set_string` from sheet.h: also forces left alignment. -/
def cell_set_string (c : Cell) (s : String) : Cell :=
  { cell_clear c with content := CellContent.str s, align := 0 }

/-- `cell_set_formula` from sheet.h: resets the cached result. -/
def cell_set_formula (c : Cell) (e : String) : Cell :=
  { cell_clear c with
      content := CellContent.formula e 0 Option.none false ErrorType.none }

/-- `sheet_set_number` from sheet.h: get-or-create, write, mark dirty. -/
def sheet_set_number (s : Sheet) (row col : Int) (v : ℚ) : Sheet :=
  match sheet_get_or_create_cell s row col with
  | (s1, some c) =>
    { s1 with cells := cellsInsert s1.cells (row, col) (cell_set_number c v)
              needs_recalc := true }
  | (s1, Option.none) => s1

/-- `sheet_set_string` from sheet.h.  Note: unlike `sheet_set_number`
and `sheet_set_formula`, the C code does NOT set `needs_recalc`. -/
def sheet_set_string (s : Sheet) (row col : Int) (str : String) : Sheet :=
  match sheet_get_or_create_cell s row col with
  | (s1, some c) =>
    { s1 with cells := cellsInsert s1.cells (row, col) (cell_set_string c str) }
  | (s1, Option.none) => s1

/-- `sheet_set_formula` from sheet.h. -/
def sheet_set_formula (s : Sheet) (row col : Int) (e : String) : Sheet :=
  match sheet_get_or_create_cell s row col with
  | (s1, some c) =>
    { s1 with cells := cellsInsert s1.cells (row, col) (cell_set_formula c e)
              needs_recalc := true }
  | (s1, Option.none) => s1

/-- `sheet_clear_cell` from sheet.h: only clears an existing cell and
then marks the sheet dirty. -/
def sheet_clear_cell (s : Sheet) (row col : Int) : Sheet :=
  match sheet_get_cell s row col with
  | some c =>
    { s with cells := cellsInsert s.cells (row, col) (cell_clear c)
             needs_recalc := true }
  | Option.none => s

/-! ### Reference codec (sheet.h: `cell_reference_to_string`, `parse_cell_reference`) -/

/-- C `isspace` in the default locale. -/
def cIsSpace (c : Char) : Bool :=
  c = ' ' ∨ c = '\t' ∨ c = '\n' ∨ c = '\r' ∨ c = '\x0b' ∨ c = '\x0c'

/-- `skip_whitespace` from sheet.h, on the remaining character list. -/
def skip_whitespace : List Char → List Char
  | [] => []
  | c :: t => if cIsSpace c then skip_whitespace t else c :: t

/-- C `toupper` restricted to ASCII (the only inputs the engine feeds it). -/
def cToUpper (c : Char) : Char :=
  if 'a' ≤ c ∧ c ≤ 'z' then Char.ofNat (c.toNat - 32) else c

/-- Fueled form of the letter-emitting loop of
`cell_reference_to_string` (structural recursion on the fuel; the
counter strictly decreases, so fuel equal to the counter suffices). -/
def colLettersFuel : Nat → Nat → List Char
  | 0, _ => []
  | _, 0 => []
  | fuel + 1, n + 1 => Char.ofNat (65 + n % 26) :: colLettersFuel fuel (n / 26)

/-- The letter-emitting loop of `cell_reference_to_string`: the C code
runs `col++` once and then repeatedly `col--; emit 'A' + col % 26;
col /= 26`, producing the least-significant letter first.  The argument
is the already incremented counter. -/
def colLettersAux (n : Nat) : List Char :=
  colLettersFuel n n

/-- Fueled form of the decimal printer (fuel bounds the digit count;
`n` itself is always enough). -/
def decCharsFuel : Nat → Nat → List Char
  | 0, _ => []
  | fuel + 1, n =>
    if n < 10 then [Char.ofNat (48 + n)]
    else decCharsFuel fuel (n / 10) ++ [Char.ofNat (48 + n % 10)]

/-- Decimal digit characters of a natural number, most significant
first; models `snprintf`'s `%d` for nonnegative values. -/
def decChars (n : Nat) : List Char :=
  decCharsFuel (n + 1) n

/-- `cell_reference_to_string` from sheet.h, for nonnegative indices
(the only ones the program produces labels for).  The C static buffers
(8 letters, 16 total characters) cannot overflow for the in-range
indices of the claims, so truncation is not modelled. -/
def cell_reference_to_string (row col : Int) : String :=
  String.mk ((colLettersAux (col + 1).toNat).reverse ++ decChars (row + 1).toNat)

/-- Accumulating column-letter parse step of `parse_cell_reference`. -/
def colStep (acc : Int) (c : Char) : Int :=
  acc * 26 + (((cToUpper c).toNat : Int) - 65 + 1)

/-- Accumulating row-digit parse step of `parse_cell_reference`. -/
def rowStep (acc : Int) (c : Char) : Int :=
  acc * 10 + ((c.toNat : Int) - 48)

/-- The letter-consuming loop of `parse_cell_reference`. -/
def parseColAcc : List Char → Int → Int × List Char
  | [], acc => (acc, [])
  | c :: t, acc => if c.isAlpha then parseColAcc t (colStep acc c) else (acc, c :: t)

/-- The digit-consuming loop of `parse_cell_reference`. -/
def parseRowAcc : List Char → Int → Int × List Char
  | [], acc => (acc, [])
  | c :: t, acc => if c.isDigit then parseRowAcc t (rowStep acc c) else (acc, c :: t)

/-- `parse_cell_reference` from sheet.h on a character list: optional
whitespace, at least one letter, at least one digit, optional
whitespace, end of input; yields zero-based `(row, col)`.  The C
function returns 0 and leaves the out-parameters unspecified on
failure, modelled as `none`. -/
def parse_cell_reference_chars (l : List Char) : Option (Int × Int) :=
  let l1 := skip_whitespace l
  match l1 with
  | [] => Option.none
  | c :: _ =>
    if ¬ c.isAlpha then Option.none
    else
      match parseColAcc l1 0 with
      | (colv, l2) =>
        match l2 with
        | [] => Option.none
        | d :: _ =>
          if ¬ d.isDigit then Option.none
          else
            match parseRowAcc l2 0 with
            | (rowv, l3) =>
              match skip_whitespace l3 with
              | [] => some (rowv - 1, colv - 1)
              | _ :: _ => Option.none

/-- `parse_cell_reference` on a `String`. -/
def parse_cell_reference (s : String) : Option (Int × Int) :=
  parse_cell_reference_chars s.toList

/-! ### Ranges and range values (sheet.h: `parse_range`, `get_range_values`) -/

/-- `CellRange` from sheet.h. -/
structure CellRange where
  start_row : Int
  start_col : Int
  end_row : Int
  end_col : Int
  deriving DecidableEq, Repr

/-- `strchr(range_str, ':')`: split a character list at the first colon. -/
def splitAtColon : List Char → Option (List Char × List Char)
  | [] => Option.none
  | c :: t =>
    if c = ':' then some ([], t)
    else (splitAtColon t).map (fun pr => (c :: pr.1, pr.2))

/-- `parse_range` from sheet.h: split on the colon (the start half must
fit the C `start_ref[16]` buffer), parse both halves, canonicalize. -/
def parse_range_chars (l : List Char) : Option CellRange :=
  match splitAtColon l with
  | Option.none => Option.none
  | some (pre, post) =>
    if pre.length ≥ 16 then Option.none
    else
      match parse_cell_reference_chars pre with
      | Option.none => Option.none
      | some (sr, sc) =>
        match parse_cell_reference_chars post with
        | Option.none => Option.none
        | some (er, ec) =>
          some { start_row := min sr er
                 start_col := min sc ec
                 end_row := max sr er
                 end_col := max sc ec }

/-- Row-major list of the positions of a range (the two nested loops of
`get_range_values`). -/
def rangePositions (range : CellRange) : List (Int × Int) :=
  (List.range (range.end_row - range.start_row + 1).toNat).flatMap
    (fun i => (List.range (range.end_col - range.start_col + 1).toNat).map
      (fun j => (range.start_row + (i : Int), range.start_col + (j : Int))))

/-- What one grid position contributes to `get_range_values`: `some v`
when a value is appended (NULL slot and Empty contribute 0, numbers and
error-free formula caches contribute themselves), `none` when skipped
(Text, errored formulas, Error cells). -/
def rangeContribution (s : Sheet) (p : Int × Int) : Option ℚ :=
  match sheet_get_cell s p.1 p.2 with
  | Option.none => some 0
  | some cell =>
    match cell.content with
    | CellContent.number v => some v
    | CellContent.formula _ cv _ _ e =>
      if e = ErrorType.none then some cv else Option.none
    | CellContent.empty => some 0
    | _ => Option.none

/-- The collection loop of `get_range_values`, including the
`count >= max_values` guard (once the output buffer is full, nothing
further is collected). -/
def collectValues (s : Sheet) : List (Int × Int) → Nat → Nat → List ℚ
  | [], _, _ => []
  | p :: t, count, maxv =>
    if count ≥ maxv then []
    else
      match rangeContribution s p with
      | some v => v :: collectValues s t (count + 1) maxv
      | Option.none => collectValues s t count maxv

/-- `get_range_values` from sheet.h. -/
def get_range_values (s : Sheet) (range : CellRange) (maxValues : Nat) : List ℚ :=
  collectValues s (rangePositions range) 0 maxValues

/-! ### Built-in functions (sheet.h: `func_sum` … `func_power`) -/

/-- `func_sum` from sheet.h. -/
def func_sum (values : List ℚ) : ℚ :=
  values.foldl (· + ·) 0

/-- `func_avg` from sheet.h. -/
def func_avg (values : List ℚ) : ℚ :=
  if values.length = 0 then 0 else func_sum values / values.length

/-- `func_max` from sheet.h. -/
def func_max : List ℚ → ℚ
  | [] => 0
  | v :: t => t.foldl (fun m x => if x > m then x else m) v

/-- `func_min` from sheet.h. -/
def func_min : List ℚ → ℚ
  | [] => 0
  | v :: t => t.foldl (fun m x => if x < m then x else m) v

/-- `func_median` from sheet.h.  The C code sorts the value buffer with
`qsort` and the comparator `compare_double`; on values the result is the
unique `≤`-sorted permutation, modelled with insertion sort. -/
def func_median (values : List ℚ) : ℚ :=
  if values.length = 0 then 0
  else
    let sorted := List.insertionSort (· ≤ ·) values
    if values.length % 2 = 0 then
      (sorted.getD (values.length / 2 - 1) 0 + sorted.getD (values.length / 2) 0) / 2
    else sorted.getD (values.length / 2) 0

/-- The 1e-10 tolerance the engine uses for floating-point equality
tests (`fabs(a - b) < 1e-10`); exact as a rational. -/
def qTolerance : ℚ := 1 / 10 ^ 10

/-- Inner counting loop of `func_mode`: 1 (for `values[i]` itself) plus
the number of later entries within the tolerance. -/
def modeCount (x : ℚ) (later : List ℚ) : Nat :=
  1 + (later.filter (fun y => |x - y| < qTolerance)).length

/-- Outer loop of `func_mode`: keep the first value whose count strictly
exceeds the running maximum. -/
def modeLoop : List ℚ → ℚ → Nat → ℚ
  | [], best, _ => best
  | v :: rest, best, bestCount =>
    let c := modeCount v rest
    if c > bestCount then modeLoop rest v c else modeLoop rest best bestCount

/-- `func_mode` from sheet.h: starts with `mode = values[0]`,
`max_count = 1` and scans every index. -/
def func_mode (values : List ℚ) : ℚ :=
  match values with
  | [] => 0
  | v :: _ => modeLoop values v 1

/-- `func_if` from sheet.h (the basic numeric conditional). -/
def func_if (condition true_val false_val : ℚ) : ℚ :=
  if condition ≠ 0 then true_val else false_val

/-- `func_power` from sheet.h calls the C library `pow`.  The rational
model carries `pow` exactly for integer exponents (the only exponents a
rational-valued model can represent exactly; no claim exercises
fractional exponents).  Like `pow`, it returns 1 for `0^0`. -/
def func_power (base exponent : ℚ) : ℚ :=
  if exponent.den = 1 then base ^ exponent.num else 0

/-! ### C library string/number primitives -/

/-- `strcmp` on character lists, returning the sign of the first
differing byte (only its sign is ever consumed). -/
def strcmpInt : List Char → List Char → Int
  | [], [] => 0
  | [], _ :: _ => -1
  | _ :: _, [] => 1
  | a :: s, b :: t =>
    if a.toNat < b.toNat then -1
    else if b.toNat < a.toNat then 1
    else strcmpInt s t

/-- Greedy digit span (helper for the `strtod` model). -/
def spanDigits : List Char → List Char × List Char
  | [] => ([], [])
  | c :: t =>
    if c.isDigit then
      match spanDigits t with
      | (a, b) => (c :: a, b)
    else ([], c :: t)

/-- Decimal value of a digit-character list. -/
def digitsToNat (l : List Char) : Nat :=
  l.foldl (fun a c => a * 10 + (c.toNat - 48)) 0

/-- Model of C `strtod` on the decimal forms the engine feeds it:
optional whitespace, optional sign, digits with optional fraction,
optional exponent (consumed only when at least one exponent digit
follows).  Returns `none` when no conversion is performed
(`endptr == nptr`); hex/inf/nan forms are not exercised by the
program's formula strings. -/
def strtodQ (l : List Char) : Option (ℚ × List Char) :=
  let l1 := skip_whitespace l
  let sign : ℚ × List Char :=
    match l1 with
    | '-' :: t => (-1, t)
    | '+' :: t => (1, t)
    | _ => (1, l1)
  match spanDigits sign.2 with
  | (ip, l3) =>
    let frac : List Char × List Char :=
      match l3 with
      | '.' :: t => spanDigits t
      | _ => ([], l3)
    if ip = [] ∧ frac.1 = [] then Option.none
    else
      let mant : ℚ := (digitsToNat ip : ℚ) + (digitsToNat frac.1 : ℚ) / 10 ^ frac.1.length
      match frac.2 with
      | e :: t =>
        if e = 'e' ∨ e = 'E' then
          let esign : Int × List Char :=
            match t with
            | '-' :: u => (-1, u)
            | '+' :: u => (1, u)
            | _ => (1, t)
          match spanDigits esign.2 with
          | ([], _) => some (sign.1 * mant, frac.2)
          | (ed, t3) => some (sign.1 * mant * 10 ^ (esign.1 * (digitsToNat ed : Int)), t3)
        else some (sign.1 * mant, frac.2)
      | [] => some (sign.1 * mant, [])

/-- C `(int)` truncation (toward zero) of a double, on the rational model. -/
def ratTruncInt (q : ℚ) : Int :=
  if q ≥ 0 then ⌊q⌋ else -⌊-q⌋

/-! ### Formula engine (sheet.h: tokenizer helpers, `func_vlookup`,
recursive-descent parser, `evaluate_comparison`, `evaluate_formula`).

The process-global `g_current_evaluating_cell` / `g_if_result_*` slots
are written only by `func_if_enhanced`, which `parse_function` never
dispatches (no `IF` branch exists in the C dispatcher), so the
evaluator is effectively pure and is modelled as such. -/

/-- Capped run of cell-reference characters (alphanumeric or colon, at
most 31, matching the `ref_buf[32]` loop in `parse_factor`). -/
def takeRefChars : Nat → List Char → List Char × List Char
  | _, [] => ([], [])
  | 0, l => ([], l)
  | n + 1, c :: t =>
    if c.isAlpha ∨ c.isDigit ∨ c = ':' then
      match takeRefChars n t with
      | (a, b) => (c :: a, b)
    else ([], c :: t)

/-- Capped run of alphanumeric characters (the `left_ref[32]` scan in
`evaluate_comparison`). -/
def takeAlnum : Nat → List Char → List Char × List Char
  | _, [] => ([], [])
  | 0, l => ([], l)
  | n + 1, c :: t =>
    if c.isAlpha ∨ c.isDigit then
      match takeAlnum n t with
      | (a, b) => (c :: a, b)
    else ([], c :: t)

/-- Capped run of alphabetic characters (function-name scans). -/
def takeAlpha : Nat → List Char → List Char × List Char
  | _, [] => ([], [])
  | 0, l => ([], l)
  | n + 1, c :: t =>
    if c.isAlpha then
      match takeAlpha n t with
      | (a, b) => (c :: a, b)
    else ([], c :: t)

/-- Capped scan of a string-literal body: stops at a double quote, the
cap, or end of input; the rest starts at the terminator. -/
def takeStringLit : Nat → List Char → List Char × List Char
  | _, [] => ([], [])
  | 0, l => ([], l)
  | n + 1, c :: t =>
    if c = '"' then ([], c :: t)
    else
      match takeStringLit n t with
      | (a, b) => (c :: a, b)

/-- Capped scan of a VLOOKUP table-range argument: stops at a comma,
the cap (63, from `table_range[64]`), or end of input. -/
def takeUntilComma : Nat → List Char → List Char × List Char
  | _, [] => ([], [])
  | 0, l => ([], l)
  | n + 1, c :: t =>
    if c = ',' then ([], c :: t)
    else
      match takeUntilComma n t with
      | (a, b) => (c :: a, b)

/-- The comparison-operator scan of `evaluate_comparison`: one of
`= < >`, optionally followed by `=` (or `>` after `<`). -/
def readCompOp : List Char → List Char × List Char
  | [] => ([], [])
  | c :: t =>
    if c = '=' ∨ c = '<' ∨ c = '>' then
      match t with
      | d :: u => if d = '=' ∨ (d = '>' ∧ c = '<') then ([c, d], u) else ([c], t)
      | [] => ([c], [])
    else ([], c :: t)

/-- The matching-parenthesis scan of the aggregate branch of
`parse_function`: walks until the parenthesis depth returns to zero;
the matching `)` is not part of the argument and the rest starts after
it.  When input ends first (unterminated call) the rest is empty,
matching the C pointer landing on the terminating NUL. -/
def argScan : List Char → Nat → List Char × List Char
  | [], _ => ([], [])
  | c :: t, depth =>
    let depth1 := if c = '(' then depth + 1 else if c = ')' then depth - 1 else depth
    if depth1 = 0 then ([], t)
    else
      match argScan t depth1 with
      | (a, b) => (c :: a, b)

/-- `get_cell_string_value` from sheet.h: the stored text of a cell
(Text content, or a string-flagged formula cache). -/
def get_cell_string_value (s : Sheet) (ref : List Char) : Option String :=
  match parse_cell_reference_chars ref with
  | Option.none => Option.none
  | some (row, col) =>
    match sheet_get_cell s row col with
    | Option.none => Option.none
    | some cell =>
      match cell.content with
      | CellContent.str str => some str
      | CellContent.formula _ _ cs isr _ => if isr then cs else Option.none
      | _ => Option.none

/-- Numeric reading of a first-column cell for VLOOKUP (`NULL` for
non-numeric cells, which the C scan skips). -/
def vlookupCellNumeric (cell : Cell) : Option ℚ :=
  match cell.content with
  | CellContent.number v => some v
  | CellContent.formula _ cv _ _ e =>
    if e = ErrorType.none then some cv else Option.none
  | _ => Option.none

/-- The rows of a range, top to bottom. -/
def rangeRowsList (range : CellRange) : List Int :=
  (List.range (range.end_row - range.start_row + 1).toNat).map
    (fun i => range.start_row + (i : Int))

/-- The "is there a better approximate match below" rescan inside
`func_vlookup`. -/
def vlookupLaterBetter (s : Sheet) (range : CellRange) (lookup_value cell_value : ℚ)
    (laterRows : List Int) : Bool :=
  laterRows.any (fun nr =>
    match sheet_get_cell s nr range.start_col with
    | some c2 =>
      match vlookupCellNumeric c2 with
      | some nv => decide (nv ≤ lookup_value ∧ nv > cell_value)
      | Option.none => false
    | Option.none => false)

/-- Whether a first-column cell matches the VLOOKUP key, from
`func_vlookup` (string keys against Text / string-result formulas;
numeric keys exactly within 1e-10 or approximately as the largest value
`≤` key). -/
def vlookupMatches (s : Sheet) (range : CellRange) (lookup_value : ℚ)
    (lookup_str : Option String) (exact_match : Bool) (cell : Cell)
    (laterRows : List Int) : Bool :=
  match lookup_str with
  | some str =>
    match cell.content with
    | CellContent.str cs => decide (strcmpInt cs.toList str.toList = 0)
    | CellContent.formula _ _ cs isr _ =>
      isr && (match cs with
              | some c => decide (strcmpInt c.toList str.toList = 0)
              | Option.none => false)
    | _ => false
  | Option.none =>
    match vlookupCellNumeric cell with
    | Option.none => false
    | some cv =>
      if exact_match then decide (|cv - lookup_value| < qTolerance)
      else decide (cv ≤ lookup_value) &&
        ! vlookupLaterBetter s range lookup_value cv laterRows

/-- Result-cell handling of a matched VLOOKUP row: `some` = return that
answer, `none` = the C switch falls through and the row scan
continues (errored formulas, Text and Error result cells). -/
def vlookupResult (s : Sheet) (row result_col : Int) : Option (ℚ × ErrorType) :=
  match sheet_get_cell s row result_col with
  | Option.none => some (0, ErrorType.none)
  | some rc =>
    match rc.content with
    | CellContent.number v => some (v, ErrorType.none)
    | CellContent.formula _ cv _ _ e =>
      if e = ErrorType.none then some (cv, ErrorType.none) else Option.none
    | CellContent.empty => some (0, ErrorType.none)
    | _ => Option.none

/-- The row scan of `func_vlookup`. -/
def vlookupScan (s : Sheet) (range : CellRange) (lookup_value : ℚ)
    (lookup_str : Option String) (col_index : Int) (exact_match : Bool) :
    List Int → ℚ × ErrorType
  | [] => (0, ErrorType.na)
  | row :: rest =>
    match sheet_get_cell s row range.start_col with
    | Option.none => vlookupScan s range lookup_value lookup_str col_index exact_match rest
    | some cell =>
      if vlookupMatches s range lookup_value lookup_str exact_match cell rest then
        match vlookupResult s row (range.start_col + col_index - 1) with
        | some r => r
        | Option.none => vlookupScan s range lookup_value lookup_str col_index exact_match rest
      else vlookupScan s range lookup_value lookup_str col_index exact_match rest

/-- `func_vlookup` from sheet.h. -/
def func_vlookup (s : Sheet) (lookup_value : ℚ) (lookup_str : Option String)
    (table_range : List Char) (col_index : Int) (exact_match : Bool) : ℚ × ErrorType :=
  match parse_range_chars table_range with
  | Option.none => (0, ErrorType.ref)
  | some range =>
    if col_index < 1 ∨ col_index > range.end_col - range.start_col + 1 then (0, ErrorType.ref)
    else vlookupScan s range lookup_value lookup_str col_index exact_match (rangeRowsList range)

/-- The number fallback at the end of `parse_factor`: the position is
reset to the factor start and `strtod` attempted; Parse error when it
consumes nothing. -/
def parse_factor_number (l : List Char) : ℚ × ErrorType × List Char :=
  match strtodQ l with
  | some (v, rest) => (v, ErrorType.none, rest)
  | Option.none => (0, ErrorType.parse, l)

/-- The single-argument aggregate branch of `parse_function` (SUM, AVG,
MAX, MIN, MEDIAN, MODE): the argument text is scanned up to the
matching parenthesis and interpreted as a range, a cell reference, or a
numeric literal. -/
def parse_aggregate (s : Sheet) (fname : String) (l : List Char) : ℚ × ErrorType × List Char :=
  let l1 := skip_whitespace l
  match argScan l1 1 with
  | (arg, rest) =>
    if arg.length ≥ 256 then (0, ErrorType.parse, l1)
    else
      let dispatch : List ℚ → ℚ × ErrorType × List Char := fun values =>
        if fname = "SUM" then (func_sum values, ErrorType.none, rest)
        else if fname = "AVG" then (func_avg values, ErrorType.none, rest)
        else if fname = "MAX" then (func_max values, ErrorType.none, rest)
        else if fname = "MIN" then (func_min values, ErrorType.none, rest)
        else if fname = "MEDIAN" then (func_median values, ErrorType.none, rest)
        else if fname = "MODE" then (func_mode values, ErrorType.none, rest)
        else (0, ErrorType.parse, rest)
      if arg.contains ':' then
        match parse_range_chars arg with
        | some range => dispatch (get_range_values s range 1000)
        | Option.none => (0, ErrorType.parse, l1)
      else
        match parse_cell_reference_chars arg with
        | some (row, col) =>
          match sheet_get_cell s row col with
          | some cell =>
            match cell.content with
            | CellContent.number v => dispatch [v]
            | CellContent.formula _ cv _ _ e =>
              if e = ErrorType.none then dispatch [cv] else dispatch []
            | CellContent.empty => dispatch [0]
            | _ => (0, ErrorType.value, l1)
          | Option.none => dispatch [0]
        | Option.none =>
          match strtodQ arg with
          | some (v, remaining) =>
            if remaining = [] then dispatch [v] else (0, ErrorType.parse, l1)
          | Option.none => (0, ErrorType.parse, l1)

mutual

/-- `parse_arithmetic_expression` from sheet.h (`+`/`-` level). -/
def parse_arithmetic_expression (s : Sheet) : Nat → List Char → ℚ × ErrorType × List Char
  | 0, l => (0, ErrorType.parse, l)
  | fuel + 1, l =>
    match parse_term s fuel l with
    | (r, e, l1) =>
      if e ≠ ErrorType.none then (0, e, l1) else arith_loop s fuel r l1

/-- The `+`/`-` accumulation loop of `parse_arithmetic_expression`. -/
def arith_loop (s : Sheet) : Nat → ℚ → List Char → ℚ × ErrorType × List Char
  | 0, _, l => (0, ErrorType.parse, l)
  | fuel + 1, acc, l =>
    match skip_whitespace l with
    | '+' :: t =>
      match parse_term s fuel t with
      | (r, e, l2) =>
        if e ≠ ErrorType.none then (0, e, l2) else arith_loop s fuel (acc + r) l2
    | '-' :: t =>
      match parse_term s fuel t with
      | (r, e, l2) =>
        if e ≠ ErrorType.none then (0, e, l2) else arith_loop s fuel (acc - r) l2
    | l1 => (acc, ErrorType.none, l1)

/-- `parse_term` from sheet.h (`*`/`/` level). -/
def parse_term (s : Sheet) : Nat → List Char → ℚ × ErrorType × List Char
  | 0, l => (0, ErrorType.parse, l)
  | fuel + 1, l =>
    match parse_factor s fuel l with
    | (r, e, l1) =>
      if e ≠ ErrorType.none then (0, e, l1) else term_loop s fuel r l1

/-- The `*`/`/` accumulation loop of `parse_term`; a right operand of
exactly zero under `/` raises the Division-by-Zero error. -/
def term_loop (s : Sheet) : Nat → ℚ → List Char → ℚ × ErrorType × List Char
  | 0, _, l => (0, ErrorType.parse, l)
  | fuel + 1, acc, l =>
    match skip_whitespace l with
    | '*' :: t =>
      match parse_factor s fuel t with
      | (r, e, l2) =>
        if e ≠ ErrorType.none then (0, e, l2) else term_loop s fuel (acc * r) l2
    | '/' :: t =>
      match parse_factor s fuel t with
      | (r, e, l2) =>
        if e ≠ ErrorType.none then (0, e, l2)
        else if r = 0 then (0, ErrorType.divZero, l2)
        else term_loop s fuel (acc / r) l2
    | l1 => (acc, ErrorType.none, l1)

/-- `parse_factor` from sheet.h: parenthesized subexpression, function
call (letters followed by `(`), range (gives the sum of its values),
single cell reference, or numeric literal fallback. -/
def parse_factor (s : Sheet) : Nat → List Char → ℚ × ErrorType × List Char
  | 0, l => (0, ErrorType.parse, l)
  | fuel + 1, l =>
    let l1 := skip_whitespace l
    match l1 with
    | '(' :: t =>
      match parse_arithmetic_expression s fuel t with
      | (r, e, l2) =>
        if e ≠ ErrorType.none then (0, e, l2)
        else
          match skip_whitespace l2 with
          | ')' :: t2 => (r, ErrorType.none, t2)
          | l3 => (0, ErrorType.parse, l3)
    | _ =>
      if (skip_whitespace (l1.dropWhile Char.isAlpha)).head? = some '(' then
        parse_function s fuel l1
      else
        match takeRefChars 31 l1 with
        | (ref, l2) =>
          if ref.isEmpty then parse_factor_number l1
          else if ref.contains ':' then
            match parse_range_chars ref with
            | some range => (func_sum (get_range_values s range 1000), ErrorType.none, l2)
            | Option.none => (0, ErrorType.parse, l2)
          else
            match parse_cell_reference_chars ref with
            | some (row, col) =>
              match sheet_get_cell s row col with
              | Option.none => (0, ErrorType.none, l2)
              | some cell =>
                match cell.content with
                | CellContent.empty => (0, ErrorType.none, l2)
                | CellContent.number v => (v, ErrorType.none, l2)
                | CellContent.formula _ cv _ _ e =>
                  if e ≠ ErrorType.none then (0, e, l2) else (cv, ErrorType.none, l2)
                | _ => (0, ErrorType.value, l2)
            | Option.none => parse_factor_number l1

/-- `parse_function` from sheet.h: reads the name, expects `(`, then
dispatches to VLOOKUP, the aggregates, or POWER; anything else is a
Parse error. -/
def parse_function (s : Sheet) : Nat → List Char → ℚ × ErrorType × List Char
  | 0, l => (0, ErrorType.parse, l)
  | fuel + 1, l =>
    let l1 := skip_whitespace l
    match takeAlpha 31 l1 with
    | (nameChars, l2) =>
      let fname := String.mk (nameChars.map cToUpper)
      match skip_whitespace l2 with
      | '(' :: t =>
        if fname = "VLOOKUP" then parse_vlookup s fuel t
        else if fname = "SUM" ∨ fname = "AVG" ∨ fname = "MAX" ∨ fname = "MIN" ∨
            fname = "MEDIAN" ∨ fname = "MODE" then parse_aggregate s fname t
        else if fname = "POWER" then parse_power s fuel t
        else (0, ErrorType.parse, t)
      | l3 => (0, ErrorType.parse, l3)

/-- The VLOOKUP argument parser inside `parse_function`. -/
def parse_vlookup (s : Sheet) : Nat → List Char → ℚ × ErrorType × List Char
  | 0, l => (0, ErrorType.parse, l)
  | fuel + 1, l =>
    let l1 := skip_whitespace l
    let key : Option ((ℚ × Option String) × List Char) :=
      match l1 with
      | '"' :: t2 =>
        match takeStringLit 255 t2 with
        | (strChars, t3) =>
          match t3 with
          | '"' :: t4 => some ((0, some (String.mk strChars)), t4)
          | _ => Option.none
      | _ => Option.none
    match key with
    | some ((lv, ls), t4) => parse_vlookup_args s fuel lv ls t4
    | Option.none =>
      match l1 with
      | '"' :: _ => (0, ErrorType.parse, l1)
      | _ =>
        match parse_arithmetic_expression s fuel l1 with
        | (lv, e, t4) =>
          if e ≠ ErrorType.none then (0, e, t4)
          else parse_vlookup_args s fuel lv Option.none t4

/-- Continuation of the VLOOKUP parse after the key: comma, raw table
range text, comma, column index, optional exact-match flag, closing
parenthesis. -/
def parse_vlookup_args (s : Sheet) : Nat → ℚ → Option String → List Char →
    ℚ × ErrorType × List Char
  | 0, _, _, l => (0, ErrorType.parse, l)
  | fuel + 1, lookup_value, lookup_str, l =>
    match skip_whitespace l with
    | ',' :: t =>
      match takeUntilComma 63 (skip_whitespace t) with
      | (table_range, t2) =>
        match skip_whitespace t2 with
        | ',' :: t3 =>
          match parse_arithmetic_expression s fuel (skip_whitespace t3) with
          | (ci, e, t4) =>
            if e ≠ ErrorType.none then (0, e, t4)
            else
              let col_index := ratTruncInt ci
              let flag : Option (Bool × ErrorType × List Char) :=
                match skip_whitespace t4 with
                | ',' :: t5 =>
                  match parse_arithmetic_expression s fuel (skip_whitespace t5) with
                  | (ef, e2, t6) => some (ef ≠ 0, e2, t6)
                | _ => Option.none
              match flag with
              | some (_, e2, t6) =>
                if e2 ≠ ErrorType.none then (0, e2, t6)
                else
                  (match skip_whitespace t6 with
                   | ')' :: t7 =>
                     match func_vlookup s lookup_value lookup_str table_range col_index
                         (match flag with | some (b, _, _) => b | Option.none => false) with
                     | (v, er) => (v, er, t7)
                   | l7 => (0, ErrorType.parse, l7))
              | Option.none =>
                match skip_whitespace t4 with
                | ')' :: t7 =>
                  match func_vlookup s lookup_value lookup_str table_range col_index false with
                  | (v, er) => (v, er, t7)
                | l7 => (0, ErrorType.parse, l7)
        | l3 => (0, ErrorType.parse, l3)
    | l2 => (0, ErrorType.parse, l2)

/-- The POWER branch of `parse_function`. -/
def parse_power (s : Sheet) : Nat → List Char → ℚ × ErrorType × List Char
  | 0, l => (0, ErrorType.parse, l)
  | fuel + 1, l =>
    match parse_arithmetic_expression s fuel (skip_whitespace l) with
    | (base, e, l1) =>
      if e ≠ ErrorType.none then (0, e, l1)
      else
        match skip_whitespace l1 with
        | ',' :: t =>
          match parse_arithmetic_expression s fuel t with
          | (expo, e2, l2) =>
            if e2 ≠ ErrorType.none then (0, e2, l2)
            else
              match skip_whitespace l2 with
              | ')' :: t2 => (func_power base expo, ErrorType.none, t2)
              | l3 => (0, ErrorType.parse, l3)
        | l2 => (0, ErrorType.parse, l2)

end

/-- `evaluate_comparison` from sheet.h: first peeks for the
`cell_ref <op> "string"` shape and performs a string comparison if it
matches; otherwise both sides evaluate numerically (equality with the
1e-10 tolerance, `<>` exact). -/
def evaluate_comparison (s : Sheet) (fuel : Nat) (l : List Char) : ℚ × ErrorType :=
  let leftScan := takeAlnum 31 l
  let isLeftRef := ¬ leftScan.1.isEmpty ∧ (parse_cell_reference_chars leftScan.1).isSome
  let opScan := readCompOp (skip_whitespace leftScan.2)
  let afterOpWs := skip_whitespace opScan.2
  let isRightString := afterOpWs.head? = some '"'
  if isLeftRef ∧ ¬ opScan.1.isEmpty ∧ isRightString then
    let rightChars := (takeStringLit 255 afterOpWs.tail).1
    let cmp : Int :=
      match get_cell_string_value s leftScan.1 with
      | some ls => strcmpInt ls.toList rightChars
      | Option.none => strcmpInt [] rightChars
    let op := String.mk opScan.1
    if op = "=" then (if cmp = 0 then 1 else 0, ErrorType.none)
    else if op = "<>" then (if cmp ≠ 0 then 1 else 0, ErrorType.none)
    else if op = "<" then (if cmp < 0 then 1 else 0, ErrorType.none)
    else if op = "<=" then (if cmp ≤ 0 then 1 else 0, ErrorType.none)
    else if op = ">" then (if cmp > 0 then 1 else 0, ErrorType.none)
    else if op = ">=" then (if cmp ≥ 0 then 1 else 0, ErrorType.none)
    else (0, ErrorType.parse)
  else
    match parse_arithmetic_expression s fuel l with
    | (left, e, l1) =>
      if e ≠ ErrorType.none then (left, e)
      else
        match skip_whitespace l1 with
        | '>' :: '=' :: t =>
          match parse_arithmetic_expression s fuel t with
          | (right, e2, _) => (if left ≥ right then 1 else 0, e2)
        | '>' :: t =>
          match parse_arithmetic_expression s fuel t with
          | (right, e2, _) => (if left > right then 1 else 0, e2)
        | '<' :: '=' :: t =>
          match parse_arithmetic_expression s fuel t with
          | (right, e2, _) => (if left ≤ right then 1 else 0, e2)
        | '<' :: '>' :: t =>
          match parse_arithmetic_expression s fuel t with
          | (right, e2, _) => (if left ≠ right then 1 else 0, e2)
        | '<' :: t =>
          match parse_arithmetic_expression s fuel t with
          | (right, e2, _) => (if left < right then 1 else 0, e2)
        | '=' :: t =>
          match parse_arithmetic_expression s fuel t with
          | (right, e2, _) => (if |left - right| < qTolerance then 1 else 0, e2)
        | _ => (left, ErrorType.none)

/-- `evaluate_formula` from sheet.h: strip the leading `=` and evaluate
as a comparison. -/
def evaluate_formula (s : Sheet) (fuel : Nat) (f : List Char) : ℚ × ErrorType :=
  match f with
  | '=' :: t => evaluate_comparison s fuel t
  | _ => evaluate_comparison s fuel f

/-- Sufficient fuel for an expression: the C recursion consumes at
least one character every three nested calls, so this bound cannot be
exhausted. -/
def evalFuel (e : String) : Nat := 4 * e.length + 16

/-! ### Recalculation driver (sheet.h: `sheet_recalculate`) -/

/-- Row-major order on grid positions. -/
def rmLE (p q : Int × Int) : Bool :=
  p.1 < q.1 ∨ (p.1 = q.1 ∧ p.2 ≤ q.2)

/-- Ordered insertion for the row-major position sort. -/
def insertPos (p : Int × Int) : List (Int × Int) → List (Int × Int)
  | [] => [p]
  | q :: t => if rmLE p q then p :: q :: t else q :: insertPos p t

/-- Sort positions in row-major order (the order in which the C
recalculation loop visits the grid). -/
def sortPositions : List (Int × Int) → List (Int × Int)
  | [] => []
  | p :: t => insertPos p (sortPositions t)

/-- The in-bounds positions currently holding formula cells.  The C
loop visits every grid slot in row-major order and acts only on formula
cells; since recalculation neither creates nor removes cells nor
changes any cell's type, folding over exactly these positions in the
same order is equivalent. -/
def formulaPositions (s : Sheet) : List (Int × Int) :=
  sortPositions ((s.cells.filter (fun pc =>
    match pc.2.content with
    | CellContent.formula _ _ _ _ _ => true
    | _ => false)).map Prod.fst |>.filter (fun p =>
      decide (0 ≤ p.1 ∧ p.1 < s.rows ∧ 0 ≤ p.2 ∧ p.2 < s.cols)))

/-- One visit of the recalculation loop: evaluate the formula and write
the cached value and error (the C loop writes only these two cache
fields; `is_string_result` / `cached_string` are written elsewhere). -/
def recalcCell (s : Sheet) (p : Int × Int) : Sheet :=
  match cellsLookup s.cells p with
  | some cell =>
    match cell.content with
    | CellContent.formula e _ cs isr _ =>
      let res := evaluate_formula s (evalFuel e) e.toList
      let cell1 := { cell with content := CellContent.formula e res.1 cs isr res.2 }
      { s with cells := cellsInsert s.cells p cell1 }
    | _ => s
  | Option.none => s

/-- `sheet_recalculate` from sheet.h: a no-op unless `needs_recalc` is
set; otherwise one row-major pass over all formula cells, then the flag
is cleared. -/
def sheet_recalculate (s : Sheet) : Sheet :=
  if ¬ s.needs_recalc then s
  else
    let s1 := (formulaPositions s).foldl recalcCell s
    { s1 with needs_recalc := false }

/-! ### Formatter (sheet.h: `format_cell_value` and the
`format_number_as_*` family).

`snprintf`'s `%.*f` prints the correctly rounded fixed-point decimal of
its double argument; on the exact rational model this is
round-to-nearest with ties to even.  A negative star-precision makes
printf fall back to the default of 6. -/

/-- Round a nonnegative rational to the nearest natural, ties to even. -/
def roundHalfEven (q : ℚ) : Nat :=
  let f := ⌊q⌋
  let r := q - (f : ℚ)
  (if r < 1 / 2 then f
   else if 1 / 2 < r then f + 1
   else if f % 2 = 0 then f else f + 1).toNat

/-- Decimal string of a natural number. -/
def decString (n : Nat) : String :=
  String.mk (decChars n)

/-- Left-pad a digit string with zeros to a given width. -/
def padZeros (width : Nat) (s : String) : String :=
  String.mk (List.replicate (width - s.length) '0') ++ s

/-- `%.*f` on the rational model (`prec` as C passes it, possibly the
cell's raw `precision` field). -/
def fmtFixed (v : ℚ) (precInt : Int) : String :=
  let prec : Nat := if precInt < 0 then 6 else precInt.toNat
  let neg := v < 0
  let n := roundHalfEven (|v| * 10 ^ prec)
  let ip := n / 10 ^ prec
  let fp := n % 10 ^ prec
  (if neg then "-" else "") ++ decString ip ++
    (if prec = 0 then "" else "." ++ padZeros prec (decString fp))

/-- The trailing-zero stripping of the general/number branch of
`format_cell_value`: only active when a decimal point is present;
removes trailing zeros and then a trailing point. -/
def stripTrailingZeros (s : String) : String :=
  if s.toList.contains '.' then
    let l1 := s.toList.reverse.dropWhile (fun c => c = '0')
    let l2 := if l1.head? = some '.' then l1.tail else l1
    String.mk l2.reverse
  else s

/-- `format_number_as_percentage` from sheet.h. -/
def format_number_as_percentage (v : ℚ) (precision : Int) : String :=
  fmtFixed (v * 100) precision ++ "%"

/-- `format_number_as_currency` from sheet.h (negatives as `-$x.xx`). -/
def format_number_as_currency (v : ℚ) : String :=
  if v < 0 then "-$" ++ fmtFixed (-v) 2 else "$" ++ fmtFixed v 2

/-- The serial-date epoch used by the C code:
`(time_t)-2209161600` is 1900-01-01 00:00:00 UTC in Unix time. -/
def dateEpochOffset : Int := -2209161600

/-- Proleptic-Gregorian civil date from a day count relative to
1970-01-01 (the classic era-based algorithm; equivalent to `gmtime`'s
year/month/day fields).  Returns `(year, month 1..12, day 1..31)`. -/
def civilFromDays (z0 : Int) : Int × Int × Int :=
  let z := z0 + 719468
  let era := Int.fdiv z 146097
  let doe := (z - era * 146097).toNat
  let yoe := (doe - doe / 1460 + doe / 36524 - doe / 146096) / 365
  let y : Int := (yoe : Int) + era * 400
  let doy := doe - (365 * yoe + yoe / 4 - yoe / 100)
  let mp := (5 * doy + 2) / 153
  let d : Int := (doy - (153 * mp + 2) / 5 + 1 : Nat)
  let m : Int := (mp : Int) + (if mp < 10 then 3 else -9)
  (y + (if m ≤ 2 then 1 else 0), m, d)

/-- Month abbreviations as printed by `strftime`'s `%b` in the C
locale. -/
def monthAbbrev (m : Int) : String :=
  if m = 1 then "Jan" else if m = 2 then "Feb" else if m = 3 then "Mar"
  else if m = 4 then "Apr" else if m = 5 then "May" else if m = 6 then "Jun"
  else if m = 7 then "Jul" else if m = 8 then "Aug" else if m = 9 then "Sep"
  else if m = 10 then "Oct" else if m = 11 then "Nov" else if m = 12 then "Dec"
  else ""

/-- Two-digit zero-padded rendering of a nonnegative integer. -/
def pad2 (n : Int) : String :=
  padZeros 2 (decString n.toNat)

/-- Unix timestamp of a serial-date value (`base + trunc(v * 86400)`). -/
def serialToTimeT (v : ℚ) : Int :=
  dateEpochOffset + ratTruncInt (v * 86400)

/-- `format_number_as_date` from sheet.h.  The Windows `gmtime_s`
rejects negative timestamps (pre-1970 dates), which the C code turns
into `"#DATE!"`. -/
def format_number_as_date (v : ℚ) (style : FormatStyle) : String :=
  let t := serialToTimeT v
  if t < 0 then "#DATE!"
  else
    let days := t / 86400
    match civilFromDays days with
    | (y, m, d) =>
      match style with
      | FormatStyle.mmDDyyyy => pad2 m ++ "/" ++ pad2 d ++ "/" ++ decString y.toNat
      | FormatStyle.ddMMyyyy => pad2 d ++ "/" ++ pad2 m ++ "/" ++ decString y.toNat
      | FormatStyle.yyyyMMdd => decString y.toNat ++ "-" ++ pad2 m ++ "-" ++ pad2 d
      | FormatStyle.monDDyyyy => monthAbbrev m ++ " " ++ pad2 d ++ ", " ++ decString y.toNat
      | FormatStyle.ddMonYyyy => pad2 d ++ " " ++ monthAbbrev m ++ " " ++ decString y.toNat
      | FormatStyle.yyyyMonDD => decString y.toNat ++ " " ++ monthAbbrev m ++ " " ++ pad2 d
      | FormatStyle.shortDate => pad2 m ++ "/" ++ pad2 d ++ "/" ++ pad2 (Int.emod y 100)
      | _ => decString y.toNat ++ "-" ++ pad2 m ++ "-" ++ pad2 d

/-- The hour/minute/second split of the fractional day used by the time
formatters. -/
def timeOfDayParts (v : ℚ) : Int × Int × Int :=
  let frac := v - (⌊v⌋ : ℚ)
  let total := ratTruncInt (frac * 86400)
  (total / 3600, (total % 3600) / 60, total % 60)

/-- The 12-hour display hour and AM/PM suffix logic shared by the
12-hour styles. -/
def twelveHour (hours : Int) : Int × String :=
  if hours = 0 then (12, "AM")
  else if hours = 12 then (12, "PM")
  else if hours > 12 then (hours - 12, "PM")
  else (hours, "AM")

/-- `format_number_as_time` from sheet.h. -/
def format_number_as_time (v : ℚ) (style : FormatStyle) : String :=
  match timeOfDayParts v with
  | (hours, minutes, seconds) =>
    match style with
    | FormatStyle.time12hr =>
      match twelveHour hours with
      | (dh, ap) => decString dh.toNat ++ ":" ++ pad2 minutes ++ " " ++ ap
    | FormatStyle.time12hrSeconds =>
      match twelveHour hours with
      | (dh, ap) =>
        decString dh.toNat ++ ":" ++ pad2 minutes ++ ":" ++ pad2 seconds ++ " " ++ ap
    | FormatStyle.timeSeconds => pad2 hours ++ ":" ++ pad2 minutes ++ ":" ++ pad2 seconds
    | _ => pad2 hours ++ ":" ++ pad2 minutes

/-- `format_number_as_datetime` from sheet.h: date part and time part
joined by a space. -/
def format_number_as_datetime (v : ℚ) (date_style time_style : FormatStyle) : String :=
  format_number_as_date v date_style ++ " " ++ format_number_as_time v time_style

/-- `format_number_as_enhanced_datetime` from sheet.h. -/
def format_number_as_enhanced_datetime (v : ℚ) (style : FormatStyle) : String :=
  let t := serialToTimeT v
  if t < 0 then "#DATE!"
  else
    match civilFromDays (t / 86400), timeOfDayParts v with
    | (y, m, d), (hours, minutes, seconds) =>
      match style with
      | FormatStyle.datetimeShort =>
        match twelveHour hours with
        | (dh, ap) =>
          decString m.toNat ++ "/" ++ decString d.toNat ++ "/" ++ pad2 (Int.emod (y - 1900) 100) ++
            " " ++ decString dh.toNat ++ ":" ++ pad2 minutes ++ " " ++ ap
      | FormatStyle.datetimeLong =>
        match twelveHour hours with
        | (dh, ap) =>
          monthAbbrev m ++ " " ++ pad2 d ++ ", " ++ decString y.toNat ++ " " ++
            decString dh.toNat ++ ":" ++ pad2 minutes ++ ":" ++ pad2 seconds ++ " " ++ ap
      | FormatStyle.datetimeIso =>
        padZeros 4 (decString y.toNat) ++ "-" ++ pad2 m ++ "-" ++ pad2 d ++ "T" ++
          pad2 hours ++ ":" ++ pad2 minutes ++ ":" ++ pad2 seconds
      | _ => format_number_as_datetime v FormatStyle.mmDDyyyy FormatStyle.time12hr

/-- The fixed token per cached formula error (`format_cell_value`). -/
def errorToken (e : ErrorType) : String :=
  match e with
  | ErrorType.divZero => "#DIV/0!"
  | ErrorType.ref => "#REF!"
  | ErrorType.value => "#VALUE!"
  | ErrorType.parse => "#PARSE!"
  | ErrorType.na => "#N/A!"
  | _ => "#ERROR!"

/-- The numeric-format switch of `format_cell_value`. -/
def formatNumericValue (cell : Cell) (value : ℚ) : String :=
  match cell.format with
  | DataFormat.percentage => format_number_as_percentage value cell.precision
  | DataFormat.currency => format_number_as_currency value
  | DataFormat.date => format_number_as_date value cell.format_style
  | DataFormat.time => format_number_as_time value cell.format_style
  | DataFormat.datetime =>
    if cell.format_style = FormatStyle.datetimeShort ∨
        cell.format_style = FormatStyle.datetimeLong ∨
        cell.format_style = FormatStyle.datetimeIso then
      format_number_as_enhanced_datetime value cell.format_style
    else format_number_as_datetime value FormatStyle.mmDDyyyy FormatStyle.time12hr
  | _ => stripTrailingZeros (fmtFixed value cell.precision)

/-- `format_cell_value` from sheet.h: empty string for NULL or Empty
cells, the stored text for Text cells, the error token or cached result
for Formula cells, and the formatted number otherwise. -/
def format_cell_value (cellOpt : Option Cell) : String :=
  match cellOpt with
  | Option.none => ""
  | some cell =>
    match cell.content with
    | CellContent.empty => ""
    | CellContent.number v => formatNumericValue cell v
    | CellContent.str s => s
    | CellContent.formula _ cv cs isr er =>
      if er ≠ ErrorType.none then errorToken er
      else
        match isr, cs with
        | true, some str => str
        | _, _ => formatNumericValue cell cv
    | CellContent.err => ""

/-- `cell_get_display_value` from sheet.h. -/
def cell_get_display_value (cellOpt : Option Cell) : String :=
  format_cell_value cellOpt

/-- `sheet_get_display_value` from sheet.h. -/
def sheet_get_display_value (s : Sheet) (row col : Int) : String :=
  cell_get_display_value (sheet_get_cell s row col)

/-- `cell_set_format` from sheet.h. -/
def cell_set_format (c : Cell) (format : DataFormat) (style : FormatStyle) : Cell :=
  { c with format := format, format_style := style }

/-- `cell_set_text_color` from sheet.h. -/
def cell_set_text_color (c : Cell) (color : Int) : Cell :=
  { c with text_color := color }

/-- `cell_set_background_color` from sheet.h. -/
def cell_set_background_color (c : Cell) (color : Int) : Cell :=
  { c with background_color := color }

/-! ### Column/row sizing (sheet.h: `sheet_set_column_width` …
`sheet_resize_rows_in_range`) -/

/-- `sheet_set_column_width` from sheet.h: rejects out-of-range columns
and widths below 1; note there is no upper-bound check. -/
def sheet_set_column_width (s : Sheet) (col width : Int) : Sheet :=
  if col < 0 ∨ col ≥ s.cols ∨ width < 1 then s
  else { s with col_widths := s.col_widths.set col.toNat width }

/-- `sheet_set_row_height` from sheet.h: rejects out-of-range rows and
heights below 1; no upper-bound check. -/
def sheet_set_row_height (s : Sheet) (row height : Int) : Sheet :=
  if row < 0 ∨ row ≥ s.rows ∨ height < 1 then s
  else { s with row_heights := s.row_heights.set row.toNat height }

/-- `sheet_get_column_width` from sheet.h. -/
def sheet_get_column_width (s : Sheet) (col : Int) : Int :=
  if col < 0 ∨ col ≥ s.cols then 10 else s.col_widths.getD col.toNat 10

/-- `sheet_get_row_height` from sheet.h. -/
def sheet_get_row_height (s : Sheet) (row : Int) : Int :=
  if row < 0 ∨ row ≥ s.rows then 1 else s.row_heights.getD row.toNat 1

/-- The per-entry clamp of the resize loops: add the delta, then clamp
into `[minv, maxv]`. -/
def clampResize (w delta minv maxv : Int) : Int :=
  let w2 := w + delta
  if w2 < minv then minv else if w2 > maxv then maxv else w2

/-- Apply the resize clamp to the entries of a sizes list whose index
lies in `[lo, hi]`. -/
def resizeListAux (lo hi delta minv maxv : Int) : List Int → Int → List Int
  | [], _ => []
  | w :: t, i =>
    (if lo ≤ i ∧ i ≤ hi then clampResize w delta minv maxv else w) ::
      resizeListAux lo hi delta minv maxv t (i + 1)

/-- `sheet_resize_columns_in_range` from sheet.h: widths clamp into
`[1, 50]`. -/
def sheet_resize_columns_in_range (s : Sheet) (start_col end_col delta : Int) : Sheet :=
  if start_col < 0 ∨ end_col ≥ s.cols ∨ start_col > end_col then s
  else { s with col_widths := resizeListAux start_col end_col delta 1 50 s.col_widths 0 }

/-- `sheet_resize_rows_in_range` from sheet.h: heights clamp into
`[1, 10]`. -/
def sheet_resize_rows_in_range (s : Sheet) (start_row end_row delta : Int) : Sheet :=
  if start_row < 0 ∨ end_row ≥ s.rows ∨ start_row > end_row then s
  else { s with row_heights := resizeListAux start_row end_row delta 1 10 s.row_heights 0 }

/-! ### Single-cell clipboard and cell copy (sheet.h:
`sheet_set_clipboard_cell`, `sheet_copy_cell`) -/

/-- `sheet_set_clipboard_cell` from sheet.h: a clone of the cell holding
content, width, precision, align, colors and row height.  The C code
does not copy `format` / `format_style` (they stay at the `cell_new`
defaults), and for formulas copies only the cached value and error of
the cache fields. -/
def sheet_set_clipboard_cell (cellOpt : Option Cell) : Option Cell :=
  match cellOpt with
  | Option.none => Option.none
  | some cell =>
    let base := cell_new cell.row cell.col
    let withContent :=
      match cell.content with
      | CellContent.number v => cell_set_number base v
      | CellContent.str s => cell_set_string base s
      | CellContent.formula e cv _ _ er =>
        { cell_set_formula base e with
            content := CellContent.formula e cv Option.none false er }
      | _ => base
    some { withContent with
            width := cell.width
            precision := cell.precision
            align := cell.align
            text_color := cell.text_color
            background_color := cell.background_color
            row_height := cell.row_height }

/-- `sheet_copy_cell` from sheet.h: content copy by type via the
`sheet_set_*` writers (clearing the destination when the source slot is
NULL, Empty or Error), then the display properties — width, precision,
align, colors, row height, but NOT `format` / `format_style` — and a
recalculation.  A NULL source returns before the recalculation. -/
def sheet_copy_cell (s : Sheet) (src_row src_col dest_row dest_col : Int) : Sheet :=
  match sheet_get_cell s src_row src_col with
  | Option.none => sheet_clear_cell s dest_row dest_col
  | some src =>
    let s1 :=
      match src.content with
      | CellContent.number v => sheet_set_number s dest_row dest_col v
      | CellContent.str str => sheet_set_string s dest_row dest_col str
      | CellContent.formula e _ _ _ _ => sheet_set_formula s dest_row dest_col e
      | _ => sheet_clear_cell s dest_row dest_col
    let s2 :=
      match sheet_get_cell s1 dest_row dest_col with
      | some dest =>
        let dest1 := { dest with
                        width := src.width
                        precision := src.precision
                        align := src.align
                        text_color := src.text_color
                        background_color := src.background_color
                        row_height := src.row_height }
        { s1 with cells := cellsInsert s1.cells (dest_row, dest_col) dest1 }
      | Option.none => s1
    sheet_recalculate s2

/-! ### Undo/redo system (main.c: `CellUndoData` … `redo_perform`).

The `UNDO_CLEAR_CELL` and `UNDO_FORMAT_CHANGE` enum values exist in C
but no code path ever constructs such actions, so they are not
modelled.  `undo_save_resize_state` is declared in main.c but never
defined or called: resize actions are likewise never recorded, though
`undo_perform` / `redo_perform` contain handlers for them (modelled
below). -/

/-- `CellUndoData` from main.c: position plus the before- and
after-snapshots of content, format, style and colors.  (Width,
precision and alignment are NOT captured by the C structure.)  The
`new_*` fields start zeroed (`memset`): Empty content, General format,
style 0, colors 0. -/
structure CellUndoData where
  row : Int
  col : Int
  old_content : CellContent
  new_content : CellContent
  old_format : DataFormat
  old_format_style : FormatStyle
  new_format : DataFormat
  new_format_style : FormatStyle
  old_text_color : Int
  old_background_color : Int
  new_text_color : Int
  new_background_color : Int
  deriving DecidableEq, Repr

/-- `RangeUndoData` from main.c (`cell_count` is the list length). -/
structure RangeUndoData where
  start_row : Int
  start_col : Int
  end_row : Int
  end_col : Int
  cell_data : List CellUndoData
  deriving DecidableEq, Repr

/-- `ResizeUndoData` from main.c. -/
structure ResizeUndoData where
  index : Int
  old_size : Int
  new_size : Int
  deriving DecidableEq, Repr

/-- The `UndoType` discriminant plus payload union of `UndoAction`. -/
inductive UndoActionData where
  | cellChange (d : CellUndoData)
  | rangeChange (d : RangeUndoData)
  | resizeColumn (d : ResizeUndoData)
  | resizeRow (d : ResizeUndoData)
  deriving DecidableEq, Repr

/-- `UndoAction` from main.c. -/
structure UndoAction where
  data : UndoActionData
  description : String
  deriving DecidableEq, Repr

/-- `MAX_UNDO_ACTIONS` from main.c. -/
def MAX_UNDO_ACTIONS : Nat := 100

/-- `UndoBuffer` from main.c: the live actions (length = `count`) and
the cursor to the next write position. -/
structure UndoBuffer where
  actions : List UndoAction
  current_index : Nat
  deriving DecidableEq, Repr

/-- The portion of `AppState` (main.c) the engine claims concern,
including the process-global single-cell clipboard of sheet.h. -/
structure AppState where
  sheet : Sheet
  undo_buffer : UndoBuffer
  clipboard_cell : Option Cell
  cursor_row : Int
  cursor_col : Int
  status_message : String
  deriving DecidableEq, Repr

/-- `undo_copy_cell_data` from main.c: capture a cell's state (or the
defaults for a NULL slot) into the `old_*` fields; the `new_*` fields
hold their zeroed initial values. -/
def undo_copy_cell_data (src : Option Cell) (row col : Int) : CellUndoData :=
  match src with
  | Option.none =>
    { row := row, col := col
      old_content := CellContent.empty
      new_content := CellContent.empty
      old_format := DataFormat.general
      old_format_style := FormatStyle.mmDDyyyy
      new_format := DataFormat.general
      new_format_style := FormatStyle.mmDDyyyy
      old_text_color := -1, old_background_color := -1
      new_text_color := 0, new_background_color := 0 }
  | some c =>
    { row := row, col := col
      old_content := c.content
      new_content := CellContent.empty
      old_format := c.format
      old_format_style := c.format_style
      new_format := DataFormat.general
      new_format_style := FormatStyle.mmDDyyyy
      old_text_color := c.text_color
      old_background_color := c.background_color
      new_text_color := 0, new_background_color := 0 }

/-- The shared head of `undo_save_cell_state` / `undo_save_range_state`:
discard the redo tail past the cursor, then evict the oldest entry when
the buffer is at capacity. -/
def undo_buffer_make_room (b : UndoBuffer) : UndoBuffer :=
  let b1 := if b.current_index < b.actions.length then
    { actions := b.actions.take b.current_index, current_index := b.current_index }
    else b
  if b1.actions.length ≥ MAX_UNDO_ACTIONS then
    { actions := b1.actions.drop 1, current_index := b1.current_index - 1 }
  else b1

/-- Append a freshly recorded action and move the cursor to the end. -/
def undo_buffer_push (b : UndoBuffer) (a : UndoAction) : UndoBuffer :=
  let b1 := undo_buffer_make_room b
  { actions := b1.actions ++ [a], current_index := b1.actions.length + 1 }

/-- `undo_save_cell_state` from main.c. -/
def undo_save_cell_state (st : AppState) (row col : Int) (description : String) : AppState :=
  let d := undo_copy_cell_data (sheet_get_cell st.sheet row col) row col
  let a : UndoAction := { data := UndoActionData.cellChange d, description := description }
  { st with undo_buffer := undo_buffer_push st.undo_buffer a }

/-- The row-major positions of a recorded rectangle. -/
def rectPositions (start_row start_col end_row end_col : Int) : List (Int × Int) :=
  (List.range (end_row - start_row + 1).toNat).flatMap
    (fun i => (List.range (end_col - start_col + 1).toNat).map
      (fun j => (start_row + (i : Int), start_col + (j : Int))))

/-- `undo_save_range_state` from main.c: capture every cell of the
rectangle in row-major order. -/
def undo_save_range_state (st : AppState) (start_row start_col end_row end_col : Int)
    (description : String) : AppState :=
  let cds := (rectPositions start_row start_col end_row end_col).map
    (fun p => undo_copy_cell_data (sheet_get_cell st.sheet p.1 p.2) p.1 p.2)
  let rd : RangeUndoData :=
    { start_row := start_row, start_col := start_col
      end_row := end_row, end_col := end_col, cell_data := cds }
  let a : UndoAction := { data := UndoActionData.rangeChange rd, description := description }
  { st with undo_buffer := undo_buffer_push st.undo_buffer a }

/-- `undo_restore_cell_data` from main.c: clear the slot, stop there
when the snapshot was Empty, otherwise rebuild content and then restore
format, style and colors (width, precision and alignment are not in the
snapshot and so not restored). -/
def undo_restore_cell_data (s : Sheet) (d : CellUndoData) (row col : Int) : Sheet :=
  let s1 := sheet_clear_cell s row col
  match d.old_content with
  | CellContent.empty => s1
  | _ =>
    match sheet_get_or_create_cell s1 row col with
    | (s2, some c) =>
      let c1 :=
        match d.old_content with
        | CellContent.number v => cell_set_number c v
        | CellContent.str str => cell_set_string c str
        | CellContent.formula e _ _ _ _ => cell_set_formula c e
        | _ => c
      let c2 := { c1 with
                    format := d.old_format
                    format_style := d.old_format_style
                    text_color := d.old_text_color
                    background_color := d.old_background_color }
      { s2 with cells := cellsInsert s2.cells (row, col) c2 }
    | (s2, Option.none) => s2

/-- The capture of the current (post-mutation) cell state into the
`new_*` fields that `undo_perform` does before restoring. -/
def undo_capture_new (d : CellUndoData) (cur : Option Cell) : CellUndoData :=
  match cur with
  | some cell =>
    { d with new_content := cell.content
             new_format := cell.format
             new_format_style := cell.format_style
             new_text_color := cell.text_color
             new_background_color := cell.background_color }
  | Option.none =>
    { d with new_content := CellContent.empty
             new_format := DataFormat.general
             new_format_style := FormatStyle.mmDDyyyy
             new_text_color := -1
             new_background_color := -1 }

/-- `undo_perform` from main.c.  Cell records capture the after-state
for redo and then restore the before-state; range records restore each
snapshot (capturing nothing); resize records re-apply the old size.
Finishes with a recalculation and a status message. -/
def undo_perform (st : AppState) : AppState :=
  let b := st.undo_buffer
  if b.current_index = 0 then { st with status_message := "Nothing to undo" }
  else
    let idx := b.current_index - 1
    match b.actions.get? idx with
    | Option.none => st
    | some action =>
      let applied : Sheet × List UndoAction :=
        match action.data with
        | UndoActionData.cellChange d =>
          let d2 := undo_capture_new d (sheet_get_cell st.sheet d.row d.col)
          (undo_restore_cell_data st.sheet d2 d.row d.col,
           b.actions.set idx { action with data := UndoActionData.cellChange d2 })
        | UndoActionData.rangeChange r =>
          (r.cell_data.foldl (fun sh cd => undo_restore_cell_data sh cd cd.row cd.col) st.sheet,
           b.actions)
        | UndoActionData.resizeColumn rz =>
          (sheet_set_column_width st.sheet rz.index rz.old_size, b.actions)
        | UndoActionData.resizeRow rz =>
          (sheet_set_row_height st.sheet rz.index rz.old_size, b.actions)
      { st with
          sheet := sheet_recalculate applied.1
          undo_buffer := { actions := applied.2, current_index := idx }
          status_message := "Undid: " ++ action.description }

/-- `redo_perform` from main.c.  Cell records restore the captured
after-state; range records call `undo_restore_cell_data`, i.e. they
restore the BEFORE-state again (the C comment reads "This would need
similar logic as above for each cell.  For now, keeping it simple");
resize records re-apply the new size. -/
def redo_perform (st : AppState) : AppState :=
  let b := st.undo_buffer
  if b.current_index ≥ b.actions.length then { st with status_message := "Nothing to redo" }
  else
    match b.actions.get? b.current_index with
    | Option.none => st
    | some action =>
      let sheet1 : Sheet :=
        match action.data with
        | UndoActionData.cellChange d =>
          let s1 := sheet_clear_cell st.sheet d.row d.col
          if d.new_content = CellContent.empty then s1
          else
            match sheet_get_or_create_cell s1 d.row d.col with
            | (s2, some c) =>
              let c1 :=
                match d.new_content with
                | CellContent.number v => cell_set_number c v
                | CellContent.str str => cell_set_string c str
                | CellContent.formula e _ _ _ _ => cell_set_formula c e
                | _ => c
              let c2 := { c1 with
                            format := d.new_format
                            format_style := d.new_format_style
                            text_color := d.new_text_color
                            background_color := d.new_background_color }
              { s2 with cells := cellsInsert s2.cells (d.row, d.col) c2 }
            | (s2, Option.none) => s2
        | UndoActionData.rangeChange r =>
          r.cell_data.foldl (fun sh cd => undo_restore_cell_data sh cd cd.row cd.col) st.sheet
        | UndoActionData.resizeColumn rz =>
          sheet_set_column_width st.sheet rz.index rz.new_size
        | UndoActionData.resizeRow rz =>
          sheet_set_row_height st.sheet rz.index rz.new_size
      { st with
          sheet := sheet_recalculate sheet1
          undo_buffer := { b with current_index := b.current_index + 1 }
          status_message := "Redid: " ++ action.description }

/-- `app_copy_cell` from main.c: clone the cursor cell into the
single-cell clipboard. -/
def app_copy_cell (st : AppState) : AppState :=
  { st with
      clipboard_cell := sheet_set_clipboard_cell (sheet_get_cell st.sheet st.cursor_row st.cursor_col)
      status_message := "Cell copied" }

/-- `app_paste_cell` from main.c: record an undo snapshot of the cursor
cell, then `sheet_copy_cell` from the clipboard cell's,
recorded source coordinates to the cursor. -/
def app_paste_cell (st : AppState) : AppState :=
  match st.clipboard_cell with
  | some clip =>
    let st1 := undo_save_cell_state st st.cursor_row st.cursor_col "Paste cell"
    { st1 with
        sheet := sheet_copy_cell st1.sheet clip.row clip.col st1.cursor_row st1.cursor_col
        status_message := "Cell pasted" }
  | Option.none => { st with status_message := "Nothing to paste" }

/-! ### Specification-side notions used by the theorems -/

/-- The authoritative content of a cell with the derived formula cache
stripped (a formula cell's content is its source expression; the cache
is recomputed). -/
inductive ContentCore where
  | empty
  | number (v : ℚ)
  | str (s : String)
  | formulaExpr (e : String)
  | err
  deriving DecidableEq, Repr

/-- Project a `CellContent` to its cache-free core. -/
def contentCore : CellContent → ContentCore
  | CellContent.empty => ContentCore.empty
  | CellContent.number v => ContentCore.number v
  | CellContent.str s => ContentCore.str s
  | CellContent.formula e _ _ _ _ => ContentCore.formulaExpr e
  | CellContent.err => ContentCore.err

/-- Everything about a cell except the formula cache: core content plus
all formatting, color and sizing fields. -/
structure CellView where
  core : ContentCore
  width : Int
  precision : Int
  align : Int
  format : DataFormat
  format_style : FormatStyle
  text_color : Int
  background_color : Int
  row_height : Int
  deriving DecidableEq, Repr

/-- The view of one cell. -/
def cellView (c : Cell) : CellView :=
  { core := contentCore c.content
    width := c.width
    precision := c.precision
    align := c.align
    format := c.format
    format_style := c.format_style
    text_color := c.text_color
    background_color := c.background_color
    row_height := c.row_height }

/-- The cache-free view of a grid slot. -/
def viewAt (s : Sheet) (row col : Int) : Option CellView :=
  (sheet_get_cell s row col).map cellView

/-- The raw content of a grid slot. -/
def contentAt (s : Sheet) (row col : Int) : Option CellContent :=
  (sheet_get_cell s row col).map Cell.content

/-- What the SUM claim says one position contributes: its numeric value
with Empty cells and never-created slots as 0, and Text cells and
errored formulas skipped (contributing nothing to the sum). -/
def claimCellContribution (s : Sheet) (p : Int × Int) : ℚ :=
  match sheet_get_cell s p.1 p.2 with
  | Option.none => 0
  | some cell =>
    match cell.content with
    | CellContent.number v => v
    | CellContent.formula _ cv _ _ e => if e = ErrorType.none then cv else 0
    | _ => 0

/-- The pairwise sum of the numeric values a range contains. -/
def rangeSpecSum (s : Sheet) (range : CellRange) : ℚ :=
  ((rangePositions range).map (claimCellContribution s)).sum

/-- Pairwise separation: every two values of the list are either equal
or at least the mode tolerance apart, so tolerance-equality coincides
with equality. -/
def sepTol (l : List ℚ) : Prop :=
  ∀ x ∈ l, ∀ y ∈ l, (|x - y| < qTolerance ↔ x = y)

/-- The maximal frequency (multiset multiplicity) over a list. -/
def listMaxFreq (l : List ℚ) : Nat :=
  (l.map (fun x => l.count x)).foldr max 0

/-- The first entry whose count over the remaining entries (itself
included) reaches `C` — the quantity `func_mode` maximises. -/
def firstWithCount (C : Nat) : List ℚ → Option ℚ
  | [] => Option.none
  | v :: rest => if 1 + rest.count v = C then some v else firstWithCount C rest

/-- All suffix counts of the list are bounded by `C`. -/
def allCountsLe : List ℚ → Nat → Prop
  | [], _ => True
  | v :: rest, C => 1 + rest.count v ≤ C ∧ allCountsLe rest C

/-- The column-widths invariant of the specification:
`col_widths[c] ∈ [1, 50]`. -/
def widthsInvariant (s : Sheet) : Prop :=
  ∀ w ∈ s.col_widths, 1 ≤ w ∧ w ≤ 50

/-- The row-heights invariant of the specification:
`row_heights[r] ∈ [1, 10]`. -/
def heightsInvariant (s : Sheet) : Prop :=
  ∀ h ∈ s.row_heights, 1 ≤ h ∧ h ≤ 10

/-! ### Concrete scenario states used by counterexamples and witnesses -/

/-- An empty application state over the default 1000 × 100 grid of
`app_init`. -/
def freshAppState (s : Sheet) : AppState :=
  { sheet := s
    undo_buffer := { actions := [], current_index := 0 }
    clipboard_cell := Option.none
    cursor_row := 0
    cursor_col := 0
    status_message := "Ready" }

/-- C1 scenario, initial sheet: A1 = 1, A2 = 2, recalculated. -/
def c1Sheet0 : Sheet :=
  sheet_recalculate (sheet_set_number (sheet_set_number (sheet_new 1000 100) 0 0 1) 1 0 2)

/-- C1 scenario: a range undo record of A1:A2 is taken (as
`app_paste_range` does before a range paste). -/
def c1Recorded : AppState :=
  undo_save_range_state (freshAppState c1Sheet0) 0 0 1 0 "Paste range"

/-- C1 scenario: the recorded mutation — overwrite A1 with 10 and A2
with 20 and recalculate. -/
def c1Mutated : AppState :=
  { c1Recorded with
      sheet := sheet_recalculate
        (sheet_set_number (sheet_set_number c1Recorded.sheet 0 0 10) 1 0 20) }

/-- C1 scenario after `undo_perform`. -/
def c1AfterUndo : AppState := undo_perform c1Mutated

/-- C1 scenario after `undo_perform` then `redo_perform`. -/
def c1AfterRedo : AppState := redo_perform c1AfterUndo

/-- C2 / E4 scenario: write 0.1234 into A1 and format it as a
percentage (precision is the default 2), as `app_init` builds its
percentage example. -/
def c2Sheet : Sheet :=
  let s0 := sheet_set_number (sheet_new 1000 100) 0 0 (1234 / 10000)
  match sheet_get_or_create_cell s0 0 0 with
  | (s1, some c) =>
    let c1 := cell_set_format c DataFormat.percentage FormatStyle.mmDDyyyy
    { s1 with cells := cellsInsert s1.cells (0, 0) c1 }
  | (s1, Option.none) => s1

/-- C2 / E4 scenario: copy A1 to the single-cell clipboard. -/
def c2Copied : AppState := app_copy_cell (freshAppState c2Sheet)

/-- C2 / E4 scenario: paste onto B1. -/
def c2Pasted : AppState := app_paste_cell { c2Copied with cursor_col := 1 }

/-- C3 scenario: a sheet holding the number 5 in A1, recalculated so
the needs-recalculation flag is clear. -/
def c3Sheet0 : Sheet :=
  sheet_recalculate (sheet_set_number (sheet_new 1000 100) 0 0 5)

/-- C3 scenario after `sheet_set_string` over the number cell. -/
def c3Sheet1 : Sheet := sheet_set_string c3Sheet0 0 0 "hello"

/-- C4 counterexample sheet: the number 7 in cell A501 (row 500), all
else untouched. -/
def c4Sheet : Sheet := sheet_set_number (sheet_new 1000 100) 500 0 7

/-- C4 counterexample range: A1:B501, i.e. 501 × 2 = 1002 positions —
more than the 1000-value collection buffer. -/
def c4Range : CellRange :=
  { start_row := 0, start_col := 0, end_row := 500, end_col := 1 }

/-- A small in-cap range (A1:A3) for the C4 witness. -/
def c4SmallRange : CellRange :=
  { start_row := 0, start_col := 0, end_row := 2, end_col := 0 }

/-- C6 tolerance counterexample list: values closer than 1e-10 chained
so that tolerance-equality is not transitive. -/
def c6TolList : List ℚ :=
  [0, 7 / 10 ^ 11, 7 / 10 ^ 11, 13 / 10 ^ 11, 21 / 10 ^ 11, 21 / 10 ^ 11]

/-- C8 counterexample: a fresh sheet with column 0 set to width 100 via
`sheet_set_column_width` (which checks no upper bound). -/
def c8Sheet : Sheet := sheet_set_column_width (sheet_new 1000 100) 0 100

/-- A small sheet whose column 0 has width 1. -/
def c8OneSheet : Sheet := sheet_set_column_width (sheet_new 4 4) 0 1

/-- A small sheet whose column 0 has width 50. -/
def c8FiftySheet : Sheet := sheet_set_column_width (sheet_new 4 4) 0 50

/-- The cell holding 5 at A1 of the C3 scenario sheet. -/
def c3Cell : Cell := cell_set_number (cell_new 0 0) 5

/-- The percentage-formatted A1 cell of the C2 scenario sheet. -/
def c2SrcCell : Cell :=
  cell_set_format (cell_set_number (cell_new 0 0) (1234 / 10000))
    DataFormat.percentage FormatStyle.mmDDyyyy

/-- C10 scenario: a sheet whose A1 cell exists but was cleared back to
Empty. -/
def c10Sheet : Sheet := sheet_clear_cell (sheet_set_number (sheet_new 3 3) 0 0 5) 0 0

/-- The cleared A1 cell of `c10Sheet`. -/
def c10Cell : Cell := cell_clear (cell_set_number (cell_new 0 0) 5)

/-! ## Theorems

First, infrastructure lemmas about the grid container and the helper
loops; then one theorem per claim (with its witness or counterexample).
-/

theorem cellsLookup_insert (l : List ((Int × Int) × Cell)) (k p : Int × Int) (v : Cell) :
    cellsLookup (cellsInsert l k v) p = if k = p then some v else cellsLookup l p := by
  induction l with
  | nil => by_cases h : k = p <;> simp [cellsInsert, cellsLookup, h]
  | cons hd t ih =>
    obtain ⟨k2, v2⟩ := hd
    by_cases h2 : k2 = k
    · subst h2
      by_cases h : k2 = p <;> simp [cellsInsert, cellsLookup, h]
    · by_cases h : k2 = p
      · subst h
        have hkp : k ≠ k2 := fun he => h2 he.symm
        simp [cellsInsert, cellsLookup, h2, hkp]
      · simp [cellsInsert, cellsLookup, h2, h, ih]

theorem sheet_get_cell_inBounds (s : Sheet) (row col : Int)
    (hr0 : 0 ≤ row) (hr : row < s.rows) (hc0 : 0 ≤ col) (hc : col < s.cols) :
    sheet_get_cell s row col = cellsLookup s.cells (row, col) := by
  simp only [sheet_get_cell]
  rw [if_neg]
  omega

/-- C9: If the sheet's needs-recalculation flag is clear,
`recalculate()` is a no-op: every cell (content, caches, flags and
errors included), all column widths and all row heights are left
unchanged — the pass over formula cells happens only when the flag is
set. -/
theorem c9_recalculate_noop_when_flag_clear (s : Sheet) (h : s.needs_recalc = false) :
    (sheet_recalculate s).cells = s.cells ∧
    (sheet_recalculate s).col_widths = s.col_widths ∧
    (sheet_recalculate s).row_heights = s.row_heights ∧
    sheet_recalculate s = s := by
  have hs : sheet_recalculate s = s := by
    simp [sheet_recalculate, h]
  exact ⟨by rw [hs], by rw [hs], by rw [hs], hs⟩

theorem c9_recalculate_noop_witness :
    (sheet_new 3 3).needs_recalc = false ∧ sheet_recalculate (sheet_new 3 3) = sheet_new 3 3 :=
  ⟨rfl, (c9_recalculate_noop_when_flag_clear (sheet_new 3 3) rfl).2.2.2⟩

/-- C10: `display_value(r, c)` is total over all integer index pairs:
out-of-bounds positions, in-bounds positions never written, and Empty
cells all produce the empty string, with no error surfaced. -/
theorem c10_display_value_total (s : Sheet) (row col : Int) :
    ((row < 0 ∨ row ≥ s.rows ∨ col < 0 ∨ col ≥ s.cols) →
      sheet_get_display_value s row col = "") ∧
    (sheet_get_cell s row col = Option.none → sheet_get_display_value s row col = "") ∧
    (∀ cell, sheet_get_cell s row col = some cell → cell.content = CellContent.empty →
      sheet_get_display_value s row col = "") := by
  refine ⟨fun h => ?_, fun h => ?_, fun cell h hc => ?_⟩
  · simp [sheet_get_display_value, cell_get_display_value, format_cell_value,
      sheet_get_cell, if_pos h]
  · simp [sheet_get_display_value, cell_get_display_value, format_cell_value, h]
  · simp [sheet_get_display_value, cell_get_display_value, format_cell_value, h, hc]

theorem c10_display_value_total_witness :
    sheet_get_display_value (sheet_new 3 3) (-1) 0 = "" ∧
    sheet_get_display_value (sheet_new 3 3) 0 0 = "" ∧
    sheet_get_display_value c10Sheet 0 0 = "" := by
  refine ⟨(c10_display_value_total (sheet_new 3 3) (-1) 0).1 (by omega),
    (c10_display_value_total (sheet_new 3 3) 0 0).2.1 (by decide),
    (c10_display_value_total c10Sheet 0 0).2.2 c10Cell (by decide) (by decide)⟩

/-- C1 (code bug): for a RANGE undo record, `undo()` does restore the
pre-mutation state, but `undo()` followed by `redo()` restores the
pre-mutation state AGAIN instead of the post-mutation state —
`redo_perform` reuses `undo_restore_cell_data`, which replays the
before-snapshots (the C source marks this with "For now, keeping it
simple").  Scenario: A1=1, A2=2 are recorded as a range record, then
overwritten with 10 and 20; after undo + redo the grid holds 1 and 2,
not 10 and 20. -/
theorem c1_range_redo_restores_pre_mutation_state :
    contentAt c1Mutated.sheet 0 0 = some (CellContent.number 10) ∧
    contentAt c1Mutated.sheet 1 0 = some (CellContent.number 20) ∧
    contentAt c1AfterUndo.sheet 0 0 = some (CellContent.number 1) ∧
    contentAt c1AfterUndo.sheet 1 0 = some (CellContent.number 2) ∧
    contentAt c1AfterRedo.sheet 0 0 = some (CellContent.number 1) ∧
    contentAt c1AfterRedo.sheet 1 0 = some (CellContent.number 2) := by
  decide

/-- C3 counterexample: `sheet_set_string` does NOT mark the sheet as
needing recalculation (the claim says it does, like `set_number` and
`set_formula`), and it overwrites the alignment with left (0) rather
than preserving it (the fresh number cell had the default right
alignment 2). -/
theorem c3_set_text_counterexample :
    c3Sheet0.needs_recalc = false ∧
    (sheet_get_cell c3Sheet0 0 0).map Cell.align = some 2 ∧
    contentAt c3Sheet1 0 0 = some (CellContent.str "hello") ∧
    c3Sheet1.needs_recalc = false ∧
    (sheet_get_cell c3Sheet1 0 0).map Cell.align = some 0 := by
  decide

/-- C3 amended: for in-bounds `(r, c)`, `set_text` replaces the cell's
content with the text, preserves format, style, colors, width and
precision (every field except content and alignment), sets the
alignment to left, and — unlike `set_number` and `set_formula` — leaves
the needs-recalculation flag unchanged. -/
theorem c3_set_text_replaces_content_preserves_format (s : Sheet) (row col : Int)
    (str : String) (hr0 : 0 ≤ row) (hr : row < s.rows) (hc0 : 0 ≤ col) (hc : col < s.cols) :
    (sheet_set_string s row col str).needs_recalc = s.needs_recalc ∧
    (∀ cell, sheet_get_cell s row col = some cell →
      sheet_get_cell (sheet_set_string s row col str) row col =
        some { cell with content := CellContent.str str, align := 0 }) ∧
    (sheet_get_cell s row col = Option.none →
      sheet_get_cell (sheet_set_string s row col str) row col =
        some { cell_new row col with content := CellContent.str str, align := 0 }) := by
  have hb : ¬ (row < 0 ∨ row ≥ s.rows ∨ col < 0 ∨ col ≥ s.cols) := by omega
  have hget := sheet_get_cell_inBounds s row col hr0 hr hc0 hc
  refine ⟨?_, fun cell hcell => ?_, fun hnone => ?_⟩
  · simp only [sheet_set_string, sheet_get_or_create_cell, if_neg hb]
    cases cellsLookup s.cells (row, col) <;> rfl
  · rw [hget] at hcell
    simp only [sheet_set_string, sheet_get_or_create_cell, if_neg hb, hcell]
    simp only [sheet_get_cell, if_neg hb]
    rw [cellsLookup_insert, if_pos rfl]
    rfl
  · rw [hget] at hnone
    simp only [sheet_set_string, sheet_get_or_create_cell, if_neg hb, hnone]
    simp only [sheet_get_cell, if_neg hb]
    rw [cellsLookup_insert, if_pos rfl]
    rfl

theorem viewAt_recalcCell (s : Sheet) (q : Int × Int) (row col : Int) :
    viewAt (recalcCell s q) row col = viewAt s row col := by
  simp only [recalcCell]
  cases hq : cellsLookup s.cells q with
  | none => rfl
  | some cell =>
    obtain ⟨content, w, pr, al, fm, fs, tc, bg, rh, r0, c0⟩ := cell
    cases content with
    | empty => rfl
    | number v => rfl
    | str s2 => rfl
    | err => rfl
    | formula e cv cs isr er =>
      simp only [viewAt, sheet_get_cell]
      by_cases hb : row < 0 ∨ row ≥ s.rows ∨ col < 0 ∨ col ≥ s.cols
      · rw [if_pos hb, if_pos hb]
      · rw [if_neg hb, if_neg hb, cellsLookup_insert]
        by_cases hqe : q = (row, col)
        · subst hqe
          rw [if_pos rfl, hq]
          simp [cellView, contentCore]
        · rw [if_neg hqe]

theorem viewAt_recalc_foldl (ps : List (Int × Int)) (s : Sheet) (row col : Int) :
    viewAt (ps.foldl recalcCell s) row col = viewAt s row col := by
  induction ps generalizing s with
  | nil => rfl
  | cons p t ih =>
    simp only [List.foldl_cons]
    rw [ih, viewAt_recalcCell]

theorem viewAt_recalculate (s : Sheet) (row col : Int) :
    viewAt (sheet_recalculate s) row col = viewAt s row col := by
  simp only [sheet_recalculate]
  by_cases h : ¬ s.needs_recalc
  · rw [if_pos h]
  · rw [if_neg h]
    show viewAt { (formulaPositions s).foldl recalcCell s with needs_recalc := false } row col =
      viewAt s row col
    have hv : ∀ s1 : Sheet, viewAt { s1 with needs_recalc := false } row col = viewAt s1 row col :=
      fun s1 => rfl
    rw [hv, viewAt_recalc_foldl]

theorem sheet_set_number_get (s : Sheet) (row col : Int) (v : ℚ)
    (hr0 : 0 ≤ row) (hr : row < s.rows) (hc0 : 0 ≤ col) (hc : col < s.cols) :
    sheet_get_cell (sheet_set_number s row col v) row col =
      some (cell_set_number
        (match cellsLookup s.cells (row, col) with
         | some c => c
         | Option.none => cell_new row col) v) ∧
    (sheet_set_number s row col v).rows = s.rows ∧
    (sheet_set_number s row col v).cols = s.cols := by
  have hb : ¬ (row < 0 ∨ row ≥ s.rows ∨ col < 0 ∨ col ≥ s.cols) := by omega
  cases hl : cellsLookup s.cells (row, col) with
  | none =>
    simp only [sheet_set_number, sheet_get_or_create_cell, if_neg hb, hl]
    refine ⟨?_, by simp, by simp⟩
    simp only [sheet_get_cell, if_neg hb]
    rw [cellsLookup_insert, if_pos rfl]
  | some c =>
    simp only [sheet_set_number, sheet_get_or_create_cell, if_neg hb, hl]
    refine ⟨?_, by simp, by simp⟩
    simp only [sheet_get_cell, if_neg hb]
    rw [cellsLookup_insert, if_pos rfl]

theorem sheet_set_string_get (s : Sheet) (row col : Int) (str : String)
    (hr0 : 0 ≤ row) (hr : row < s.rows) (hc0 : 0 ≤ col) (hc : col < s.cols) :
    sheet_get_cell (sheet_set_string s row col str) row col =
      some (cell_set_string
        (match cellsLookup s.cells (row, col) with
         | some c => c
         | Option.none => cell_new row col) str) ∧
    (sheet_set_string s row col str).rows = s.rows ∧
    (sheet_set_string s row col str).cols = s.cols := by
  have hb : ¬ (row < 0 ∨ row ≥ s.rows ∨ col < 0 ∨ col ≥ s.cols) := by omega
  cases hl : cellsLookup s.cells (row, col) with
  | none =>
    simp only [sheet_set_string, sheet_get_or_create_cell, if_neg hb, hl]
    refine ⟨?_, by simp, by simp⟩
    simp only [sheet_get_cell, if_neg hb]
    rw [cellsLookup_insert, if_pos rfl]
  | some c =>
    simp only [sheet_set_string, sheet_get_or_create_cell, if_neg hb, hl]
    refine ⟨?_, by simp, by simp⟩
    simp only [sheet_get_cell, if_neg hb]
    rw [cellsLookup_insert, if_pos rfl]

theorem sheet_set_formula_get (s : Sheet) (row col : Int) (e : String)
    (hr0 : 0 ≤ row) (hr : row < s.rows) (hc0 : 0 ≤ col) (hc : col < s.cols) :
    sheet_get_cell (sheet_set_formula s row col e) row col =
      some (cell_set_formula
        (match cellsLookup s.cells (row, col) with
         | some c => c
         | Option.none => cell_new row col) e) ∧
    (sheet_set_formula s row col e).rows = s.rows ∧
    (sheet_set_formula s row col e).cols = s.cols := by
  have hb : ¬ (row < 0 ∨ row ≥ s.rows ∨ col < 0 ∨ col ≥ s.cols) := by omega
  cases hl : cellsLookup s.cells (row, col) with
  | none =>
    simp only [sheet_set_formula, sheet_get_or_create_cell, if_neg hb, hl]
    refine ⟨?_, by simp, by simp⟩
    simp only [sheet_get_cell, if_neg hb]
    rw [cellsLookup_insert, if_pos rfl]
  | some c =>
    simp only [sheet_set_formula, sheet_get_or_create_cell, if_neg hb, hl]
    refine ⟨?_, by simp, by simp⟩
    simp only [sheet_get_cell, if_neg hb]
    rw [cellsLookup_insert, if_pos rfl]

theorem c3_set_text_witness :
    (sheet_set_string c3Sheet0 0 0 "hi").needs_recalc = c3Sheet0.needs_recalc ∧
    sheet_get_cell (sheet_set_string c3Sheet0 0 0 "hi") 0 0 =
      some { c3Cell with content := CellContent.str "hi", align := 0 } :=
  ⟨(c3_set_text_replaces_content_preserves_format c3Sheet0 0 0 "hi"
      (by decide) (by decide) (by decide) (by decide)).1,
   (c3_set_text_replaces_content_preserves_format c3Sheet0 0 0 "hi"
      (by decide) (by decide) (by decide) (by decide)).2.1 c3Cell (by decide)⟩

/-- C2 counterexample: after copying percentage-formatted A1 (holding
0.1234, displaying "12.34%") to B1 through the single-cell clipboard,
B1 displays "0.12" — the `format` / `format_style` fields are not
copied by `sheet_set_clipboard_cell` / `sheet_copy_cell`, so B1 keeps
the default General format. -/
theorem c2_format_not_copied_counterexample :
    sheet_get_display_value c2Sheet 0 0 = "12.34%" ∧
    (sheet_get_cell c2Sheet 0 0).map Cell.format = some DataFormat.percentage ∧
    contentAt c2Pasted.sheet 0 1 = some (CellContent.number (1234 / 10000)) ∧
    (sheet_get_cell c2Pasted.sheet 0 1).map Cell.format = some DataFormat.general ∧
    sheet_get_display_value c2Pasted.sheet 0 1 = "0.12" := by
  decide

/-- C2 amended: copying a non-empty cell to an in-bounds destination
makes the destination equal to the source in content and in width,
precision, align, text color, background color and row height; the
`format` and `format_style` fields are NOT copied — the destination
keeps its previous values (the defaults of a freshly created cell when
it did not exist). -/
theorem c2_copy_cell_copies_content_and_props_not_format (s : Sheet) (r1 c1 r2 c2 : Int)
    (src : Cell) (hsrc : sheet_get_cell s r1 c1 = some src)
    (hr0 : 0 ≤ r2) (hr : r2 < s.rows) (hc0 : 0 ≤ c2) (hc : c2 < s.cols)
    (hcore : contentCore src.content ≠ ContentCore.empty ∧
      contentCore src.content ≠ ContentCore.err) :
    viewAt (sheet_copy_cell s r1 c1 r2 c2) r2 c2 = some
      { core := contentCore src.content
        width := src.width
        precision := src.precision
        align := src.align
        format := (match sheet_get_cell s r2 c2 with
                   | some d => d.format
                   | Option.none => DataFormat.general)
        format_style := (match sheet_get_cell s r2 c2 with
                         | some d => d.format_style
                         | Option.none => FormatStyle.mmDDyyyy)
        text_color := src.text_color
        background_color := src.background_color
        row_height := src.row_height } := by
  have hb : ¬ (r2 < 0 ∨ r2 ≥ s.rows ∨ c2 < 0 ∨ c2 ≥ s.cols) := by omega
  have hgind := sheet_get_cell_inBounds s r2 c2 hr0 hr hc0 hc
  obtain ⟨content, w, pr, al, fm, fs, tc, bg, rh, r0, c0⟩ := src
  cases content with
  | empty => exact absurd rfl hcore.1
  | err => exact absurd rfl hcore.2
  | number v =>
    have h1 := sheet_set_number_get s r2 c2 v hr0 hr hc0 hc
    simp only [sheet_copy_cell, hsrc, h1.1]
    rw [viewAt_recalculate]
    have hb1 : ¬ (r2 < 0 ∨ r2 ≥ (sheet_set_number s r2 c2 v).rows ∨ c2 < 0 ∨
        c2 ≥ (sheet_set_number s r2 c2 v).cols) := by
      rw [h1.2.1, h1.2.2]; omega
    rw [hgind]
    simp only [viewAt, sheet_get_cell]
    rw [if_neg hb1, cellsLookup_insert, if_pos rfl]
    cases hl : cellsLookup s.cells (r2, c2) with
    | none => simp [cellView, contentCore, cell_set_number, cell_clear, cell_new]
    | some d => simp [cellView, contentCore, cell_set_number, cell_clear]
  | str s2 =>
    have h1 := sheet_set_string_get s r2 c2 s2 hr0 hr hc0 hc
    simp only [sheet_copy_cell, hsrc, h1.1]
    rw [viewAt_recalculate]
    have hb1 : ¬ (r2 < 0 ∨ r2 ≥ (sheet_set_string s r2 c2 s2).rows ∨ c2 < 0 ∨
        c2 ≥ (sheet_set_string s r2 c2 s2).cols) := by
      rw [h1.2.1, h1.2.2]; omega
    rw [hgind]
    simp only [viewAt, sheet_get_cell]
    rw [if_neg hb1, cellsLookup_insert, if_pos rfl]
    cases hl : cellsLookup s.cells (r2, c2) with
    | none => simp [cellView, contentCore, cell_set_string, cell_clear, cell_new]
    | some d => simp [cellView, contentCore, cell_set_string, cell_clear]
  | formula e cv cs isr er =>
    have h1 := sheet_set_formula_get s r2 c2 e hr0 hr hc0 hc
    simp only [sheet_copy_cell, hsrc, h1.1]
    rw [viewAt_recalculate]
    have hb1 : ¬ (r2 < 0 ∨ r2 ≥ (sheet_set_formula s r2 c2 e).rows ∨ c2 < 0 ∨
        c2 ≥ (sheet_set_formula s r2 c2 e).cols) := by
      rw [h1.2.1, h1.2.2]; omega
    rw [hgind]
    simp only [viewAt, sheet_get_cell]
    rw [if_neg hb1, cellsLookup_insert, if_pos rfl]
    cases hl : cellsLookup s.cells (r2, c2) with
    | none => simp [cellView, contentCore, cell_set_formula, cell_clear, cell_new]
    | some d => simp [cellView, contentCore, cell_set_formula, cell_clear]

theorem c2_copy_cell_witness :
    viewAt (sheet_copy_cell c2Sheet 0 0 0 1) 0 1 = some
      { core := ContentCore.number (1234 / 10000)
        width := 10
        precision := 2
        align := 2
        format := DataFormat.general
        format_style := FormatStyle.mmDDyyyy
        text_color := -1
        background_color := -1
        row_height := -1 } := by
  have h := c2_copy_cell_copies_content_and_props_not_format c2Sheet 0 0 0 1 c2SrcCell
    (by decide) (by decide) (by decide) (by decide) (by decide) ⟨by decide, by decide⟩
  rw [show sheet_get_cell c2Sheet 0 1 = Option.none from by decide] at h
  exact h

theorem resizeListAux_mem (lo hi delta minv maxv : Int) (hmm : minv ≤ maxv) :
    ∀ (l : List Int) (i : Int), (∀ w ∈ l, minv ≤ w ∧ w ≤ maxv) →
      ∀ w ∈ resizeListAux lo hi delta minv maxv l i, minv ≤ w ∧ w ≤ maxv := by
  intro l
  induction l with
  | nil =>
    intro i h w hw
    simp [resizeListAux] at hw
  | cons a t ih =>
    intro i h w hw
    simp only [resizeListAux, List.mem_cons] at hw
    rcases hw with hw | hw
    · subst hw
      by_cases hrange : lo ≤ i ∧ i ≤ hi
      · rw [if_pos hrange]
        simp only [clampResize]
        split
        · omega
        · split <;> omega
      · rw [if_neg hrange]
        exact h a (by simp)
    · exact ih (i + 1) (fun x hx => h x (by simp [hx])) w hw

theorem resizeListAux_getD (lo hi delta minv maxv : Int) :
    ∀ (l : List Int) (i : Int) (j : Nat) (d : Int), j < l.length →
      (resizeListAux lo hi delta minv maxv l i).getD j d =
        if lo ≤ i + (j : Int) ∧ i + (j : Int) ≤ hi then
          clampResize (l.getD j d) delta minv maxv
        else l.getD j d := by
  intro l
  induction l with
  | nil =>
    intro i j d hj
    simp at hj
  | cons a t ih =>
    intro i j d hj
    cases j with
    | zero =>
      simp [resizeListAux]
    | succ k =>
      have hk : k < t.length := by simpa using hj
      have := ih (i + 1) k d hk
      simp only [resizeListAux, List.getD_cons_succ]
      rw [this]
      have hcond : (lo ≤ i + 1 + (k : Int) ∧ i + 1 + (k : Int) ≤ hi) ↔
          (lo ≤ i + ((k : Int) + 1) ∧ i + ((k : Int) + 1) ≤ hi) := by omega
      by_cases hx : lo ≤ i + 1 + (k : Int) ∧ i + 1 + (k : Int) ≤ hi
      · rw [if_pos hx, if_pos (by push_cast; omega)]
      · rw [if_neg hx, if_neg (by push_cast; omega)]

/-- C8 counterexample: `sheet_set_column_width` enforces only the lower
bound, so a direct call can push a width above 50 and break the
invariant `col_widths[c] ∈ [1, 50]`. -/
theorem c8_set_column_width_exceeds_max_counterexample :
    sheet_get_column_width c8Sheet 0 = 100 ∧ ¬ widthsInvariant c8Sheet := by
  unfold widthsInvariant
  decide

/-- C8 amended: the range-resize operations clamp every affected size
into `[1, 50]` (columns) / `[1, 10]` (rows) and so preserve the
invariants; in particular a column of width 1 resized by −1 stays at 1
and one of width 50 resized by +1 stays at 50.  (`sheet_set_column_width`
/ `sheet_set_row_height` enforce only the lower bound 1, as the
counterexample shows.) -/
theorem c8_resize_clamps_and_preserves_invariants :
    (∀ (s : Sheet) (c0 c1 delta : Int), widthsInvariant s →
      widthsInvariant (sheet_resize_columns_in_range s c0 c1 delta)) ∧
    (∀ (s : Sheet) (r0 r1 delta : Int), heightsInvariant s →
      heightsInvariant (sheet_resize_rows_in_range s r0 r1 delta)) ∧
    (∀ (s : Sheet) (c : Int), 0 ≤ c → c < s.cols → s.col_widths.length = s.cols.toNat →
      sheet_get_column_width s c = 1 →
      sheet_get_column_width (sheet_resize_columns_in_range s c c (-1)) c = 1) ∧
    (∀ (s : Sheet) (c : Int), 0 ≤ c → c < s.cols → s.col_widths.length = s.cols.toNat →
      sheet_get_column_width s c = 50 →
      sheet_get_column_width (sheet_resize_columns_in_range s c c 1) c = 50) := by
  have hclamp : ∀ (s : Sheet) (c delta : Int), 0 ≤ c → c < s.cols →
      s.col_widths.length = s.cols.toNat →
      sheet_get_column_width (sheet_resize_columns_in_range s c c delta) c =
        clampResize (sheet_get_column_width s c) delta 1 50 := by
    intro s c delta hc0 hc hlen
    have hb : ¬ (c < 0 ∨ c ≥ s.cols) := by omega
    simp only [sheet_resize_columns_in_range]
    rw [if_neg (by omega)]
    simp only [sheet_get_column_width]
    rw [if_neg hb, if_neg hb]
    have hj : c.toNat < s.col_widths.length := by omega
    rw [resizeListAux_getD c c delta 1 50 s.col_widths 0 c.toNat 10 hj,
      if_pos (by constructor <;> omega)]
  refine ⟨?_, ?_, ?_, ?_⟩
  · intro s c0 c1 delta hinv
    simp only [sheet_resize_columns_in_range]
    split
    · exact hinv
    · intro w hw
      exact resizeListAux_mem c0 c1 delta 1 50 (by omega) s.col_widths 0 hinv w hw
  · intro s r0 r1 delta hinv
    simp only [sheet_resize_rows_in_range]
    split
    · exact hinv
    · intro h hw
      exact resizeListAux_mem r0 r1 delta 1 10 (by omega) s.row_heights 0 hinv h hw
  · intro s c hc0 hc hlen h1
    rw [hclamp s c (-1) hc0 hc hlen, h1]
    decide
  · intro s c hc0 hc hlen h50
    rw [hclamp s c 1 hc0 hc hlen, h50]
    decide

theorem c8_resize_witness :
    widthsInvariant (sheet_resize_columns_in_range (sheet_new 4 4) 0 2 100) ∧
    heightsInvariant (sheet_resize_rows_in_range (sheet_new 4 4) 0 2 (-5)) ∧
    sheet_get_column_width (sheet_resize_columns_in_range c8OneSheet 0 0 (-1)) 0 = 1 ∧
    sheet_get_column_width (sheet_resize_columns_in_range c8FiftySheet 0 0 1) 0 = 50 :=
  ⟨c8_resize_clamps_and_preserves_invariants.1 (sheet_new 4 4) 0 2 100
     (by unfold widthsInvariant; decide),
   c8_resize_clamps_and_preserves_invariants.2.1 (sheet_new 4 4) 0 2 (-5)
     (by unfold heightsInvariant; decide),
   c8_resize_clamps_and_preserves_invariants.2.2.1 c8OneSheet 0 (by decide) (by decide)
     (by decide) (by decide),
   c8_resize_clamps_and_preserves_invariants.2.2.2 c8FiftySheet 0 (by decide) (by decide)
     (by decide) (by decide)⟩

theorem foldl_add_shift (l : List ℚ) : ∀ acc : ℚ,
    List.foldl (· + ·) acc l = acc + List.foldl (· + ·) 0 l := by
  induction l with
  | nil => intro acc; simp
  | cons a t ih =>
    intro acc
    simp only [List.foldl_cons]
    rw [ih (acc + a), ih (0 + a)]
    ring

theorem func_sum_cons (v : ℚ) (l : List ℚ) : func_sum (v :: l) = v + func_sum l := by
  simp only [func_sum, List.foldl_cons]
  rw [foldl_add_shift l (0 + v)]
  ring

theorem func_sum_replicate_zero (k : Nat) : func_sum (List.replicate k 0) = 0 := by
  induction k with
  | zero => rfl
  | succ n ih => rw [List.replicate_succ, func_sum_cons, ih, add_zero]

theorem func_sum_filterMap (f : (Int × Int) → Option ℚ) (ps : List (Int × Int)) :
    func_sum (ps.filterMap f) = (ps.map (fun p => (f p).getD 0)).sum := by
  induction ps with
  | nil => rfl
  | cons p t ih =>
    cases hf : f p with
    | none => simp [List.filterMap_cons, hf, ih]
    | some v => simp [List.filterMap_cons, hf, func_sum_cons, ih]

theorem collectValues_no_cap (s : Sheet) : ∀ (ps : List (Int × Int)) (count maxv : Nat),
    count + ps.length ≤ maxv →
    collectValues s ps count maxv = ps.filterMap (rangeContribution s) := by
  intro ps
  induction ps with
  | nil => intro count maxv h; rfl
  | cons p t ih =>
    intro count maxv h
    have hlt : ¬ count ≥ maxv := by simp at h; omega
    simp only [collectValues, if_neg hlt, List.filterMap_cons]
    cases hc : rangeContribution s p with
    | none => exact ih count maxv (by simp at h ⊢; omega)
    | some v => rw [ih (count + 1) maxv (by simp at h ⊢; omega)]

theorem collectValues_cap_zeros (s : Sheet) :
    ∀ (ps1 ps2 : List (Int × Int)) (count maxv : Nat),
    count + ps1.length = maxv → (∀ p ∈ ps1, rangeContribution s p = some 0) →
    collectValues s (ps1 ++ ps2) count maxv = List.replicate ps1.length 0 := by
  intro ps1
  induction ps1 with
  | nil =>
    intro ps2 count maxv hcount hz
    have hcm : count = maxv := by simpa using hcount
    simp only [List.nil_append, List.length_nil, List.replicate_zero]
    cases ps2 with
    | nil => rfl
    | cons q u =>
      simp only [collectValues, if_pos (by omega : count ≥ maxv)]
  | cons p t ih =>
    intro ps2 count maxv hcount hz
    have hcm : count + (t.length + 1) = maxv := by simpa using hcount
    have hlt : ¬ count ≥ maxv := by omega
    simp only [List.cons_append, collectValues, if_neg hlt]
    rw [hz p (by simp)]
    show 0 :: collectValues s (t ++ ps2) (count + 1) maxv = List.replicate (p :: t).length 0
    rw [ih ps2 (count + 1) maxv (by omega) (fun q hq => hz q (by simp [hq]))]
    simp [List.replicate_succ]

theorem claim_contribution_getD (s : Sheet) (p : Int × Int) :
    claimCellContribution s p = (rangeContribution s p).getD 0 := by
  unfold claimCellContribution rangeContribution
  cases sheet_get_cell s p.1 p.2 with
  | none => rfl
  | some cell =>
    obtain ⟨content, w, pr, al, fm, fs, tc, bg, rh, r0, c0⟩ := cell
    cases content with
    | empty => rfl
    | number v => rfl
    | str s2 => rfl
    | err => rfl
    | formula e cv cs isr er =>
      by_cases he : er = ErrorType.none <;> simp [he]

/-- C4 amended: for every range covering at most 1000 grid positions
(the size of the C value-collection buffer), SUM over the range equals
the pairwise sum of the numeric values it contains — Empty cells and
never-created slots contribute 0, Text cells and errored formulas are
skipped. -/
theorem c4_sum_equals_contained_values_within_cap (s : Sheet) (range : CellRange)
    (h : (rangePositions range).length ≤ 1000) :
    func_sum (get_range_values s range 1000) = rangeSpecSum s range := by
  unfold get_range_values rangeSpecSum
  rw [collectValues_no_cap s _ 0 1000 (by omega), func_sum_filterMap]
  have hfun : claimCellContribution s = fun p => (rangeContribution s p).getD 0 :=
    funext (claim_contribution_getD s)
  rw [hfun]

theorem c4_sum_witness :
    (rangePositions c4SmallRange).length ≤ 1000 ∧
    func_sum (get_range_values c4Sheet c4SmallRange 1000) = rangeSpecSum c4Sheet c4SmallRange :=
  ⟨by decide, c4_sum_equals_contained_values_within_cap c4Sheet c4SmallRange (by decide)⟩

theorem c4_contribution_away (p : Int × Int) (h : p ≠ ((500 : Int), (0 : Int))) :
    rangeContribution c4Sheet p = some 0 := by
  obtain ⟨a, b⟩ := p
  have hcells : c4Sheet.cells =
      [(((500 : Int), (0 : Int)), cell_set_number (cell_new 500 0) 7)] := by decide
  have hget : sheet_get_cell c4Sheet a b = Option.none := by
    unfold sheet_get_cell
    split
    · rfl
    · rw [hcells]
      simp only [cellsLookup]
      rw [if_neg (fun he => h he.symm)]
  unfold rangeContribution
  rw [hget]

/-- C4 counterexample: over the 1002-position range A1:B501, with the
number 7 stored at A501 (the 1001st position in row-major order), SUM
returns 0 — the value-collection buffer caps at 1000 values, so the
claim "for every range" fails; the pairwise sum of the contained
numeric values is 7. -/
theorem c4_sum_cap_counterexample :
    func_sum (get_range_values c4Sheet c4Range 1000) = 0 ∧
    rangeSpecSum c4Sheet c4Range = 7 ∧
    (rangePositions c4Range).length = 1002 := by
  have h1 : rangePositions c4Range = (List.range 501).flatMap
      (fun i => (List.range 2).map
        (fun j => ((0 : Int) + (i : Int), (0 : Int) + (j : Int)))) := rfl
  have hfun : (fun i : Nat => (List.range 2).map
      (fun j => ((0 : Int) + (i : Int), (0 : Int) + (j : Int)))) =
      (fun i : Nat => [((i : Int), (0 : Int)), ((i : Int), (1 : Int))]) := by
    funext i
    show [((0 : Int) + (i : Int), (0 : Int) + ((0 : Nat) : Int)),
          ((0 : Int) + (i : Int), (0 : Int) + ((1 : Nat) : Int))] = _
    norm_num
  have h2 : rangePositions c4Range = (List.range 501).flatMap
      (fun i => [((i : Int), (0 : Int)), ((i : Int), (1 : Int))]) := by
    rw [h1, hfun]
  have hpos : rangePositions c4Range =
      ((List.range 500).flatMap (fun i => [((i : Int), (0 : Int)), ((i : Int), (1 : Int))])) ++
        [((500 : Int), (0 : Int)), ((500 : Int), (1 : Int))] := by
    rw [h2, List.range_succ, List.flatMap_append]
    simp
  have hlen : ((List.range 500).flatMap
      (fun i => [((i : Int), (0 : Int)), ((i : Int), (1 : Int))])).length = 1000 := by decide
  have hzero : ∀ p ∈ (List.range 500).flatMap
      (fun i => [((i : Int), (0 : Int)), ((i : Int), (1 : Int))]),
      rangeContribution c4Sheet p = some 0 := by
    intro p hp
    rw [List.mem_flatMap] at hp
    obtain ⟨i, hi, hmem⟩ := hp
    rw [List.mem_range] at hi
    apply c4_contribution_away
    simp only [List.mem_cons, List.mem_singleton] at hmem
    rcases hmem with hm | hm | hm
    · subst hm
      intro he
      rw [Prod.mk.injEq] at he
      omega
    · subst hm
      intro he
      rw [Prod.mk.injEq] at he
      omega
    · cases hm
  refine ⟨?_, ?_, by decide⟩
  · unfold get_range_values
    rw [hpos, collectValues_cap_zeros c4Sheet _ _ 0 1000 (by rw [hlen]) hzero, hlen]
    exact func_sum_replicate_zero 1000
  · unfold rangeSpecSum
    rw [hpos, List.map_append, List.sum_append]
    have hz2 : (((List.range 500).flatMap
        (fun i => [((i : Int), (0 : Int)), ((i : Int), (1 : Int))])).map
          (claimCellContribution c4Sheet)).sum = 0 := by
      apply List.sum_eq_zero
      intro x hx
      rw [List.mem_map] at hx
      obtain ⟨p, hp, hx⟩ := hx
      rw [← hx, claim_contribution_getD, hzero p hp]
      rfl
    rw [hz2]
    have ha : claimCellContribution c4Sheet ((500 : Int), (0 : Int)) = 7 := by decide
    have hb2 : claimCellContribution c4Sheet ((500 : Int), (1 : Int)) = 0 := by decide
    simp [ha, hb2]

theorem letterChar_props (k : Nat) (hk : k < 26) :
    (Char.ofNat (65 + k)).isAlpha = true ∧
    (Char.ofNat (65 + k)).isDigit = false ∧
    cIsSpace (Char.ofNat (65 + k)) = false ∧
    cToUpper (Char.ofNat (65 + k)) = Char.ofNat (65 + k) ∧
    (Char.ofNat (65 + k)).toNat = 65 + k := by
  interval_cases k <;> exact (by decide)

theorem digitChar_props (k : Nat) (hk : k < 10) :
    (Char.ofNat (48 + k)).isAlpha = false ∧
    (Char.ofNat (48 + k)).isDigit = true ∧
    cIsSpace (Char.ofNat (48 + k)) = false ∧
    (Char.ofNat (48 + k)).toNat = 48 + k := by
  interval_cases k <;> exact (by decide)

theorem colLettersFuel_mem : ∀ (fuel n : Nat) (c : Char), c ∈ colLettersFuel fuel n →
    ∃ k, k < 26 ∧ c = Char.ofNat (65 + k) := by
  intro fuel
  induction fuel with
  | zero =>
    intro n c hc
    simp [colLettersFuel] at hc
  | succ f ih =>
    intro n c hc
    cases n with
    | zero => simp [colLettersFuel] at hc
    | succ m =>
      simp only [colLettersFuel, List.mem_cons] at hc
      rcases hc with hc | hc
      · exact ⟨m % 26, Nat.mod_lt _ (by omega), hc⟩
      · exact ih (m / 26) c hc

theorem colLettersFuel_foldl : ∀ (fuel n : Nat), n ≤ fuel →
    (colLettersFuel fuel n).reverse.foldl colStep 0 = (n : Int) := by
  intro fuel
  induction fuel with
  | zero =>
    intro n hn
    have : n = 0 := by omega
    subst this
    simp [colLettersFuel]
  | succ f ih =>
    intro n hn
    cases n with
    | zero => simp [colLettersFuel]
    | succ m =>
      have hm : m / 26 ≤ f := le_trans (Nat.div_le_self m 26) (by omega)
      simp only [colLettersFuel, List.reverse_cons, List.foldl_append, List.foldl_cons,
        List.foldl_nil]
      rw [ih (m / 26) hm]
      have hk := letterChar_props (m % 26) (Nat.mod_lt m (by omega))
      simp only [colStep, hk.2.2.2.1, hk.2.2.2.2]
      have hdm := Nat.div_add_mod m 26
      push_cast
      omega

theorem colLettersFuel_ne_nil (f m : Nat) : colLettersFuel (f + 1) (m + 1) ≠ [] := by
  simp [colLettersFuel]

theorem decCharsFuel_mem : ∀ (fuel n : Nat) (c : Char), n < fuel → c ∈ decCharsFuel fuel n →
    ∃ k, k < 10 ∧ c = Char.ofNat (48 + k) := by
  intro fuel
  induction fuel with
  | zero =>
    intro n c hn
    omega
  | succ f ih =>
    intro n c hn hc
    by_cases h10 : n < 10
    · simp only [decCharsFuel, if_pos h10, List.mem_singleton] at hc
      exact ⟨n, h10, hc⟩
    · simp only [decCharsFuel, if_neg h10, List.mem_append, List.mem_singleton] at hc
      rcases hc with hc | hc
      · have : n / 10 < f := by
          have := Nat.div_lt_self (show 0 < n by omega) (show 1 < 10 by omega)
          omega
        exact ih (n / 10) c this hc
      · exact ⟨n % 10, Nat.mod_lt _ (by omega), hc⟩

theorem decCharsFuel_foldl : ∀ (fuel n : Nat), n < fuel →
    (decCharsFuel fuel n).foldl rowStep 0 = (n : Int) := by
  intro fuel
  induction fuel with
  | zero => intro n hn; omega
  | succ f ih =>
    intro n hn
    by_cases h10 : n < 10
    · have hk := digitChar_props n h10
      simp only [decCharsFuel, if_pos h10, List.foldl_cons, List.foldl_nil, rowStep, hk.2.2.2]
      push_cast
      omega
    · have hdiv : n / 10 < f := by
        have := Nat.div_lt_self (show 0 < n by omega) (show 1 < 10 by omega)
        omega
      have hk := digitChar_props (n % 10) (Nat.mod_lt _ (by omega))
      simp only [decCharsFuel, if_neg h10, List.foldl_append, List.foldl_cons, List.foldl_nil]
      rw [ih (n / 10) hdiv]
      simp only [rowStep, hk.2.2.2]
      have hdm := Nat.div_add_mod n 10
      push_cast
      omega

theorem decCharsFuel_ne_nil (fuel n : Nat) (h : n < fuel) : decCharsFuel fuel n ≠ [] := by
  cases fuel with
  | zero => omega
  | succ f =>
    by_cases h10 : n < 10 <;> simp [decCharsFuel, h10]

theorem skip_whitespace_head (l : List Char) (c : Char) (h : l.head? = some c)
    (hc : cIsSpace c = false) : skip_whitespace l = l := by
  cases l with
  | nil => rfl
  | cons a t =>
    simp only [List.head?_cons, Option.some.injEq] at h
    subst h
    simp [skip_whitespace, hc]

theorem parseColAcc_span : ∀ (xs rest : List Char) (acc : Int),
    (∀ c ∈ xs, c.isAlpha = true) →
    parseColAcc (xs ++ rest) acc = parseColAcc rest (xs.foldl colStep acc) := by
  intro xs
  induction xs with
  | nil => intro rest acc h; rfl
  | cons c t ih =>
    intro rest acc h
    have hc : c.isAlpha = true := h c (by simp)
    simp only [List.cons_append, parseColAcc, if_pos hc, List.foldl_cons]
    exact ih rest (colStep acc c) (fun d hd => h d (by simp [hd]))

theorem parseColAcc_stop (rest : List Char) (acc : Int)
    (h : ∀ c, rest.head? = some c → c.isAlpha = false) : parseColAcc rest acc = (acc, rest) := by
  cases rest with
  | nil => rfl
  | cons a t => simp [parseColAcc, h a rfl]

theorem parseRowAcc_span : ∀ (xs rest : List Char) (acc : Int),
    (∀ c ∈ xs, c.isDigit = true) →
    parseRowAcc (xs ++ rest) acc = parseRowAcc rest (xs.foldl rowStep acc) := by
  intro xs
  induction xs with
  | nil => intro rest acc h; rfl
  | cons c t ih =>
    intro rest acc h
    have hc : c.isDigit = true := h c (by simp)
    simp only [List.cons_append, parseRowAcc, if_pos hc, List.foldl_cons]
    exact ih rest (rowStep acc c) (fun d hd => h d (by simp [hd]))

theorem parse_cell_reference_chars_eval (l : List Char) (cl : Char) (lrest : List Char)
    (colv : Int) (dh : Char) (dtail : List Char) (rowv : Int)
    (hskip : skip_whitespace l = cl :: lrest)
    (hcl : cl.isAlpha = true)
    (hcol : parseColAcc (cl :: lrest) 0 = (colv, dh :: dtail))
    (hdh : dh.isDigit = true)
    (hrow : parseRowAcc (dh :: dtail) 0 = (rowv, [])) :
    parse_cell_reference_chars l = some (rowv - 1, colv - 1) := by
  unfold parse_cell_reference_chars
  rw [hskip]
  simp only [hcl, not_true, if_false, hcol, hdh, hrow]
  rfl

theorem c5_roundtrip_nat (r c : Nat) :
    parse_cell_reference_chars
        ((colLettersFuel (c + 1) (c + 1)).reverse ++ decCharsFuel (r + 1 + 1) (r + 1))
      = some ((r : Int), (c : Int)) := by
  set L := (colLettersFuel (c + 1) (c + 1)).reverse with hLdef
  set D := decCharsFuel (r + 1 + 1) (r + 1) with hDdef
  have hL : L.foldl colStep 0 = ((c + 1 : Nat) : Int) := by
    rw [hLdef]
    exact colLettersFuel_foldl (c + 1) (c + 1) le_rfl
  have hD : D.foldl rowStep 0 = ((r + 1 : Nat) : Int) := by
    rw [hDdef]
    exact decCharsFuel_foldl (r + 1 + 1) (r + 1) (by omega)
  have hLmem : ∀ x ∈ L, ∃ k, k < 26 ∧ x = Char.ofNat (65 + k) := by
    intro x hx
    rw [hLdef, List.mem_reverse] at hx
    exact colLettersFuel_mem (c + 1) (c + 1) x hx
  have hDmem : ∀ x ∈ D, ∃ k, k < 10 ∧ x = Char.ofNat (48 + k) := by
    intro x hx
    rw [hDdef] at hx
    exact decCharsFuel_mem (r + 1 + 1) (r + 1) x (by omega) hx
  have hLalpha : ∀ x ∈ L, x.isAlpha = true := by
    intro x hx
    obtain ⟨k, hk, hxk⟩ := hLmem x hx
    rw [hxk]
    exact (letterChar_props k hk).1
  have hDdigit : ∀ x ∈ D, x.isDigit = true := by
    intro x hx
    obtain ⟨k, hk, hxk⟩ := hDmem x hx
    rw [hxk]
    exact (digitChar_props k hk).2.1
  have hLne : L ≠ [] := by
    rw [hLdef]
    simp only [ne_eq, List.reverse_eq_nil_iff]
    exact colLettersFuel_ne_nil c c
  have hDne : D ≠ [] := by
    rw [hDdef]
    exact decCharsFuel_ne_nil (r + 1 + 1) (r + 1) (by omega)
  obtain ⟨cl, Lt, hLcons⟩ := List.exists_cons_of_ne_nil hLne
  obtain ⟨dh, Dt, hDcons⟩ := List.exists_cons_of_ne_nil hDne
  have hclalpha : cl.isAlpha = true := hLalpha cl (by rw [hLcons]; simp)
  have hclspace : cIsSpace cl = false := by
    obtain ⟨k, hk, hck⟩ := hLmem cl (by rw [hLcons]; simp)
    rw [hck]
    exact (letterChar_props k hk).2.2.1
  have hdhdigit : dh.isDigit = true := hDdigit dh (by rw [hDcons]; simp)
  have hskip : skip_whitespace (L ++ D) = L ++ D := by
    apply skip_whitespace_head _ cl _ hclspace
    rw [hLcons]
    rfl
  have hstop : ∀ x, D.head? = some x → x.isAlpha = false := by
    intro x hxD
    have hxmem : x ∈ D := List.mem_of_mem_head? (by rw [hxD]; rfl)
    obtain ⟨k, hk, hck⟩ := hDmem x hxmem
    rw [hck]
    exact (digitChar_props k hk).1
  have hcolparse : parseColAcc (L ++ D) 0 = (((c + 1 : Nat) : Int), D) := by
    rw [parseColAcc_span L D 0 hLalpha]
    rw [parseColAcc_stop D _ hstop]
    rw [hL]
  have hrowparse : parseRowAcc D 0 = (((r + 1 : Nat) : Int), []) := by
    conv_lhs => rw [← List.append_nil D]
    rw [parseRowAcc_span D [] 0 hDdigit, hD]
    rfl
  have heval := parse_cell_reference_chars_eval (L ++ D) cl (Lt ++ D)
      ((c + 1 : Nat) : Int) dh Dt ((r + 1 : Nat) : Int)
      (by rw [hskip, hLcons, List.cons_append])
      hclalpha
      (by rw [← List.cons_append, ← hLcons, hcolparse, hDcons])
      hdhdigit
      (by rw [← hDcons]; exact hrowparse)
  rw [heval]
  simp only [Option.some.injEq, Prod.mk.injEq]
  refine ⟨by push_cast; ring, by push_cast; ring⟩

/-- C5: parsing the A1-style label produced for any in-range `(r, c)`
of the default 1000 × 100 grid returns exactly `(r, c)`. -/
theorem c5_parse_label_roundtrip (row col : Int) (hr0 : 0 ≤ row) (hr : row < 1000)
    (hc0 : 0 ≤ col) (hc : col < 100) :
    parse_cell_reference (cell_reference_to_string row col) = some (row, col) := by
  have hr' : (row + 1).toNat = row.toNat + 1 := by omega
  have hc' : (col + 1).toNat = col.toNat + 1 := by omega
  have h := c5_roundtrip_nat row.toNat col.toNat
  have hrow : ((row.toNat : Nat) : Int) = row := by omega
  have hcol : ((col.toNat : Nat) : Int) = col := by omega
  rw [hrow, hcol] at h
  show parse_cell_reference_chars (cell_reference_to_string row col).toList = some (row, col)
  have htl : (cell_reference_to_string row col).toList
      = (colLettersFuel (col.toNat + 1) (col.toNat + 1)).reverse
        ++ decCharsFuel (row.toNat + 1 + 1) (row.toNat + 1) := by
    simp only [cell_reference_to_string, colLettersAux, decChars, hr', hc']
    rfl
  rw [htl]
  exact h

/-- C5 witness: the roundtrip at the concrete cell (0, 0), whose
label is "A1". -/
theorem c5_parse_label_roundtrip_witness :
    parse_cell_reference (cell_reference_to_string 0 0) = some (0, 0) :=
  c5_parse_label_roundtrip 0 0 (by decide) (by decide) (by decide) (by decide)

theorem sepTol_tail (v : ℚ) (rest : List ℚ) (h : sepTol (v :: rest)) : sepTol rest := by
  intro x hx y hy
  exact h x (List.mem_cons_of_mem _ hx) y (List.mem_cons_of_mem _ hy)

theorem modeCount_eq_count (v : ℚ) (rest : List ℚ)
    (h : ∀ y ∈ rest, (|v - y| < qTolerance ↔ v = y)) :
    modeCount v rest = 1 + rest.count v := by
  unfold modeCount
  congr 1
  have hfil : rest.filter (fun y => decide (|v - y| < qTolerance))
      = rest.filter (fun y => y == v) := by
    apply List.filter_congr
    intro y hy
    by_cases hvy : v = y
    · subst hvy
      simp only [sub_self, abs_zero, beq_self_eq_true]
      simp only [decide_eq_true_eq]
      norm_num [qTolerance]
    · have h0 : ¬ |v - y| < qTolerance := fun hc => hvy ((h y hy).mp hc)
      have h1 : (y == v) = false := beq_eq_false_iff_ne.mpr (fun hyv => hvy hyv.symm)
      rw [decide_eq_false h0, h1]
  rw [hfil, ← List.countP_eq_length_filter]
  rfl

theorem modeLoop_of_allCountsLe : ∀ (l : List ℚ) (best : ℚ) (bc : Nat),
    sepTol l → allCountsLe l bc → modeLoop l best bc = best := by
  intro l
  induction l with
  | nil => intro best bc _ _; rfl
  | cons v rest ih =>
    intro best bc hsep hacl
    obtain ⟨h1, h2⟩ := hacl
    have hc : modeCount v rest = 1 + rest.count v :=
      modeCount_eq_count v rest
        (fun y hy => hsep v (List.mem_cons_self v rest) y (List.mem_cons_of_mem v hy))
    simp only [modeLoop]
    rw [hc, if_neg (by omega)]
    exact ih best bc (sepTol_tail v rest hsep) h2

theorem modeLoop_finds_first : ∀ (l : List ℚ) (C : Nat) (w best : ℚ) (bc : Nat),
    sepTol l → bc < C → allCountsLe l C → firstWithCount C l = some w →
    modeLoop l best bc = w := by
  intro l
  induction l with
  | nil =>
    intro C w best bc _ _ _ hfw
    simp [firstWithCount] at hfw
  | cons v rest ih =>
    intro C w best bc hsep hlt hacl hfw
    obtain ⟨h1, h2⟩ := hacl
    have hc : modeCount v rest = 1 + rest.count v :=
      modeCount_eq_count v rest
        (fun y hy => hsep v (List.mem_cons_self v rest) y (List.mem_cons_of_mem v hy))
    simp only [modeLoop]
    rw [hc]
    by_cases hCeq : 1 + rest.count v = C
    · have hw : w = v := by
        simp only [firstWithCount, if_pos hCeq, Option.some.injEq] at hfw
        exact hfw.symm
      rw [if_pos (by omega), hCeq, hw]
      exact modeLoop_of_allCountsLe rest v C (sepTol_tail v rest hsep) h2
    · have hfw' : firstWithCount C rest = some w := by
        simp only [firstWithCount, if_neg hCeq] at hfw
        exact hfw
      by_cases hgt : 1 + rest.count v > bc
      · rw [if_pos hgt]
        exact ih C w v (1 + rest.count v) (sepTol_tail v rest hsep) (by omega) h2 hfw'
      · rw [if_neg hgt]
        exact ih C w best bc (sepTol_tail v rest hsep) hlt h2 hfw'

theorem le_foldr_max : ∀ (xs : List Nat) (a : Nat), a ∈ xs → a ≤ xs.foldr max 0 := by
  intro xs
  induction xs with
  | nil => intro a ha; cases ha
  | cons b t ih =>
    intro a ha
    simp only [List.foldr_cons]
    rcases List.mem_cons.mp ha with h | h
    · subst h; exact le_max_left _ _
    · exact le_trans (ih a h) (le_max_right _ _)

theorem foldr_max_mem : ∀ (xs : List Nat), xs.foldr max 0 ∈ xs ∨ xs.foldr max 0 = 0 := by
  intro xs
  induction xs with
  | nil => right; rfl
  | cons b t ih =>
    simp only [List.foldr_cons]
    rcases Nat.le_total b (t.foldr max 0) with h | h
    · rw [Nat.max_eq_right h]
      rcases ih with h2 | h2
      · left; exact List.mem_cons_of_mem _ h2
      · right; exact h2
    · rw [Nat.max_eq_left h]
      left
      exact List.mem_cons_self b t

theorem count_le_maxFreq (l : List ℚ) (x : ℚ) (hx : x ∈ l) : l.count x ≤ listMaxFreq l := by
  unfold listMaxFreq
  exact le_foldr_max _ _ (List.mem_map_of_mem _ hx)

theorem maxFreq_attained (l : List ℚ) (hl : l ≠ []) : ∃ x ∈ l, l.count x = listMaxFreq l := by
  unfold listMaxFreq
  rcases foldr_max_mem (l.map fun x => l.count x) with h | h
  · obtain ⟨x, hx, hcx⟩ := List.mem_map.mp h
    exact ⟨x, hx, hcx⟩
  · exfalso
    obtain ⟨v, t, rfl⟩ := List.exists_cons_of_ne_nil hl
    have h1 : 0 < (v :: t).count v := List.count_pos_iff.mpr (List.mem_cons_self v t)
    have h2 : (v :: t).count v ≤ ((v :: t).map fun x => (v :: t).count x).foldr max 0 :=
      le_foldr_max _ _ (List.mem_map_of_mem _ (List.mem_cons_self v t))
    rw [h] at h2
    omega

theorem allCountsLe_of_ub : ∀ (l : List ℚ) (C : Nat),
    (∀ x ∈ l, l.count x ≤ C) → allCountsLe l C := by
  intro l
  induction l with
  | nil => intro C _; trivial
  | cons v rest ih =>
    intro C h
    refine ⟨?_, ih C ?_⟩
    · have := h v (List.mem_cons_self v rest)
      rw [List.count_cons_self] at this
      omega
    · intro x hx
      have hfull := h x (List.mem_cons_of_mem v hx)
      by_cases hxv : x = v
      · subst hxv
        rw [List.count_cons_self] at hfull
        omega
      · rw [List.count_cons_of_ne hxv] at hfull
        exact hfull

theorem firstWithCount_isSome : ∀ (l : List ℚ) (C : Nat),
    (∃ x ∈ l, l.count x = C) → ∃ w, firstWithCount C l = some w := by
  intro l
  induction l with
  | nil =>
    intro C h
    obtain ⟨x, hx, _⟩ := h
    cases hx
  | cons v rest ih =>
    intro C h
    by_cases hCeq : 1 + rest.count v = C
    · exact ⟨v, by simp [firstWithCount, hCeq]⟩
    · obtain ⟨x, hx, hcx⟩ := h
      have hxv : x ≠ v := by
        intro hxv
        subst hxv
        rw [List.count_cons_self] at hcx
        omega
      have hxrest : x ∈ rest := by
        rcases List.mem_cons.mp hx with h0 | h0
        · exact absurd h0 hxv
        · exact h0
      rw [List.count_cons_of_ne hxv] at hcx
      obtain ⟨w, hw⟩ := ih C ⟨x, hxrest, hcx⟩
      exact ⟨w, by simp [firstWithCount, hCeq, hw]⟩

theorem firstWithCount_spec : ∀ (l : List ℚ) (C : Nat) (w : ℚ),
    (∀ x ∈ l, l.count x ≤ C) → firstWithCount C l = some w →
    w ∈ l ∧ l.count w = C ∧ ∀ y ∈ l, l.count y = C → l.indexOf w ≤ l.indexOf y := by
  intro l
  induction l with
  | nil =>
    intro C w _ hfw
    simp [firstWithCount] at hfw
  | cons v rest ih =>
    intro C w hub hfw
    by_cases hCeq : 1 + rest.count v = C
    · have hw : w = v := by
        simp only [firstWithCount, if_pos hCeq, Option.some.injEq] at hfw
        exact hfw.symm
      subst hw
      refine ⟨List.mem_cons_self w rest, ?_, ?_⟩
      · rw [List.count_cons_self]
        omega
      · intro y hy hcy
        rw [List.indexOf_cons_self]
        exact Nat.zero_le _
    · have hfw' : firstWithCount C rest = some w := by
        simp only [firstWithCount, if_neg hCeq] at hfw
        exact hfw
      have hubr : ∀ x ∈ rest, rest.count x ≤ C := by
        intro x hx
        have hfull := hub x (List.mem_cons_of_mem v hx)
        by_cases hxv : x = v
        · subst hxv
          rw [List.count_cons_self] at hfull
          omega
        · rw [List.count_cons_of_ne hxv] at hfull
          exact hfull
      obtain ⟨hwm, hwc, hwmin⟩ := ih C w hubr hfw'
      have hwv : w ≠ v := by
        intro hwv
        subst hwv
        have hcl := hub w (List.mem_cons_self w rest)
        rw [List.count_cons_self] at hcl
        omega
      refine ⟨List.mem_cons_of_mem v hwm, ?_, ?_⟩
      · rw [List.count_cons_of_ne hwv]
        exact hwc
      · intro y hy hcy
        by_cases hyv : y = v
        · subst hyv
          rw [List.count_cons_self] at hcy
          omega
        · rw [List.count_cons_of_ne hyv] at hcy
          have hyrest : y ∈ rest := by
            rcases List.mem_cons.mp hy with h0 | h0
            · exact absurd h0 hyv
            · exact h0
          have hmin := hwmin y hyrest hcy
          rw [List.indexOf_cons_ne rest (Ne.symm hwv), List.indexOf_cons_ne rest (Ne.symm hyv)]
          exact Nat.succ_le_succ hmin

/-- C6 counterexample: `func_mode` is not permutation-invariant — on
`[2, 1, 1, 2]` it returns 2, while on the sorted arrangement
`[1, 1, 2, 2]` of the same multiset it returns 1 — and under the 1e-10
tolerance it does not return a value of maximal tolerance-frequency:
on `c6TolList` the value `13e-11` is within tolerance of 5 of the 6
entries while the returned value 0 is within tolerance of only 3. -/
theorem c6_mode_counterexample :
    List.insertionSort (· ≤ ·) [(2 : ℚ), 1, 1, 2] = [1, 1, 2, 2] ∧
    List.Perm [(2 : ℚ), 1, 1, 2] [1, 1, 2, 2] ∧
    func_mode [(2 : ℚ), 1, 1, 2] = 2 ∧
    func_mode [(1 : ℚ), 1, 2, 2] = 1 ∧
    func_mode c6TolList = 0 ∧
    (c6TolList.filter (fun y => |(13 / 10 ^ 11 : ℚ) - y| < qTolerance)).length = 5 ∧
    (c6TolList.filter (fun y => |(0 : ℚ) - y| < qTolerance)).length = 3 := by
  refine ⟨by decide, ?_, by decide, by decide, by decide, by decide, by decide⟩
  have h := List.perm_insertionSort (· ≤ ·) [(2 : ℚ), 1, 1, 2]
  rw [show List.insertionSort (· ≤ ·) [(2 : ℚ), 1, 1, 2] = [1, 1, 2, 2] from by decide] at h
  exact h.symm

/-- C6 (amended): `func_median` is invariant under every permutation of
the value list (so it agrees with the sorted arrangement), and whenever
all pairwise distinct values of the list are separated by at least the
1e-10 tolerance, `func_mode` returns the first value in input order
whose multiset frequency is maximal; without that separation (and in
particular for `func_mode` across permutations) the claim fails, see
the counterexample. -/
theorem c6_median_mode_amended :
    (∀ l1 l2 : List ℚ, l1.Perm l2 → func_median l1 = func_median l2) ∧
    (∀ l : List ℚ, l ≠ [] → sepTol l →
      func_mode l ∈ l ∧
      l.count (func_mode l) = listMaxFreq l ∧
      ∀ y ∈ l, l.count y = listMaxFreq l → l.indexOf (func_mode l) ≤ l.indexOf y) := by
  constructor
  · intro l1 l2 hperm
    have hsort : List.insertionSort (· ≤ ·) l1 = List.insertionSort (· ≤ ·) l2 :=
      List.eq_of_perm_of_sorted
        ((List.perm_insertionSort _ l1).trans (hperm.trans (List.perm_insertionSort _ l2).symm))
        (List.sorted_insertionSort _ l1) (List.sorted_insertionSort _ l2)
    simp only [func_median, hsort, hperm.length_eq]
  · intro l hl hsep
    obtain ⟨v, rest, rfl⟩ := List.exists_cons_of_ne_nil hl
    set M := listMaxFreq (v :: rest) with hM
    have hub : ∀ x ∈ v :: rest, (v :: rest).count x ≤ M :=
      fun x hx => count_le_maxFreq _ x hx
    have hpos : 1 ≤ M := by
      have h1 : 0 < (v :: rest).count v := List.count_pos_iff.mpr (List.mem_cons_self v rest)
      have h2 := hub v (List.mem_cons_self v rest)
      omega
    have hmode : func_mode (v :: rest) = modeLoop (v :: rest) v 1 := rfl
    by_cases hM1 : M = 1
    · have hla : modeLoop (v :: rest) v 1 = v :=
        modeLoop_of_allCountsLe (v :: rest) v 1 hsep
          (allCountsLe_of_ub _ 1 (fun x hx => by have := hub x hx; omega))
      rw [hmode, hla]
      refine ⟨List.mem_cons_self v rest, ?_, ?_⟩
      · have h1 : 0 < (v :: rest).count v := List.count_pos_iff.mpr (List.mem_cons_self v rest)
        have h2 := hub v (List.mem_cons_self v rest)
        omega
      · intro y hy hcy
        rw [List.indexOf_cons_self]
        exact Nat.zero_le _
    · have hlt : 1 < M := by omega
      have hex := maxFreq_attained (v :: rest) hl
      rw [← hM] at hex
      obtain ⟨w, hfw⟩ := firstWithCount_isSome (v :: rest) M hex
      have hloop := modeLoop_finds_first (v :: rest) M w v 1 hsep hlt
        (allCountsLe_of_ub _ M hub) hfw
      rw [hmode, hloop]
      exact firstWithCount_spec (v :: rest) M w hub hfw

/-- C6 witness: both halves of the amended theorem at concrete inputs —
`func_median` on the swap permutation `[2, 1] ~ [1, 2]`, and the
`func_mode` characterisation on the tolerance-separated list
`[5, 5, 7]`, whose mode is its first maximal-frequency value 5. -/
theorem c6_median_mode_amended_witness :
    func_median [(2 : ℚ), 1] = func_median [(1 : ℚ), 2] ∧
    (func_mode [(5 : ℚ), 5, 7] ∈ [(5 : ℚ), 5, 7] ∧
      List.count (func_mode [(5 : ℚ), 5, 7]) [(5 : ℚ), 5, 7] = listMaxFreq [(5 : ℚ), 5, 7] ∧
      ∀ y ∈ [(5 : ℚ), 5, 7], List.count y [(5 : ℚ), 5, 7] = listMaxFreq [(5 : ℚ), 5, 7] →
        List.indexOf (func_mode [(5 : ℚ), 5, 7]) [(5 : ℚ), 5, 7]
          ≤ List.indexOf y [(5 : ℚ), 5, 7]) :=
  ⟨c6_median_mode_amended.1 [(2 : ℚ), 1] [(1 : ℚ), 2] (List.Perm.swap 1 2 []),
    c6_median_mode_amended.2 [(5 : ℚ), 5, 7] (by decide)
      (show sepTol [(5 : ℚ), 5, 7] from
        (by decide :
          ∀ x ∈ [(5 : ℚ), 5, 7], ∀ y ∈ [(5 : ℚ), 5, 7], (|x - y| < qTolerance ↔ x = y)))⟩

set_option exponentiation.threshold 512 in
/-- C7: in `term_loop` (the `*`/`/` level of the evaluator), a division
whose right operand parses without error signals Division-by-Zero
exactly when that operand is exactly 0, and otherwise divides and
continues; concretely, `=1/1e-300` evaluates to the finite value 10^300
with no error, while `=1/0` signals Division-by-Zero. -/
theorem c7_division_zero_exact :
    (∀ (s : Sheet) (fuel : Nat) (acc r : ℚ) (t l2 : List Char),
      parse_factor s fuel t = (r, ErrorType.none, l2) →
      term_loop s (fuel + 1) acc ('/' :: t) =
        if r = 0 then (0, ErrorType.divZero, l2)
        else term_loop s fuel (acc / r) l2) ∧
    evaluate_formula (sheet_new 4 4) (evalFuel "=1/1e-300") "=1/1e-300".toList
      = ((10 : ℚ) ^ (300 : ℕ), ErrorType.none) ∧
    evaluate_formula (sheet_new 4 4) (evalFuel "=1/0") "=1/0".toList
      = (0, ErrorType.divZero) := by
  refine ⟨?_, by decide, by decide⟩
  intro s fuel acc r t l2 hpf
  have hred : term_loop s (fuel + 1) acc ('/' :: t) =
      (match parse_factor s fuel t with
        | (r0, e, l3) =>
          if e ≠ ErrorType.none then (0, e, l3)
          else if r0 = 0 then (0, ErrorType.divZero, l3)
          else term_loop s fuel (acc / r0) l3) := rfl
  rw [hred, hpf]
  rfl

/-- C7 witness: the division step applied at the concrete state
`acc = 1`, right operand text "2" (which parses to 2 with no error)
on a fresh 4 × 4 sheet. -/
theorem c7_division_zero_exact_witness :
    parse_factor (sheet_new 4 4) 5 ['2'] = (2, ErrorType.none, []) ∧
    term_loop (sheet_new 4 4) (5 + 1) 1 ('/' :: ['2']) =
      (if (2 : ℚ) = 0 then (0, ErrorType.divZero, ([] : List Char))
        else term_loop (sheet_new 4 4) 5 (1 / 2) []) :=
  ⟨by decide, c7_division_zero_exact.1 (sheet_new 4 4) 5 1 2 ['2'] [] (by decide)⟩

end WinSpread
